import Mathlib

/-!
Verification of the cc-vec query-compilation and document-extraction core.

The definitions below are a shallow embedding of the Python sources
(`src/cc_vec/core/cc_athena_client.py`, `src/cc_vec/core/text_processor.py`,
`src/cc_vec/core/s3_client.py`, `src/cc_vec/lib/fetch.py`,
`src/cc_vec/lib/stats.py`, `src/cc_vec/types/models.py`).  Strings are
modelled as `List Char`; Python-level exceptions are modelled with
`Except String`; external collaborators (the S3 byte fetch, gzip
decompression, the BeautifulSoup HTML cleaner, pydantic's `HttpUrl`
validator) are modelled as explicit parameters or small abstract functions,
noted at their definitions.  Character classes from Python regexes are
modelled over their ASCII range (Python's `\w`, `\d`, `\s` also accept some
non-ASCII characters; every claim checked here is insensitive to that
difference, as noted where it matters).
-/

namespace CCVec

/-- Whitespace characters: the ASCII whitespace recognized by Python's
`str.strip`/`str.isspace` and the regex class `\s`, plus the common Unicode
space characters Python also accepts. -/
def pyIsSpace (c : Char) : Bool :=
  c = ' ' || c = '\t' || c = '\n' || c = '\r' || c = '\x0b' || c = '\x0c' ||
  c = '\x1c' || c = '\x1d' || c = '\x1e' || c = '\x1f' || c = '\x85' ||
  c = '\xa0' || c = ' ' || ((' ' ≤ c) && (c ≤ ' ')) ||
  c = ' ' || c = ' ' || c = ' ' || c = ' ' || c = '　'

/-- ASCII lower-case letter. -/
def isLowerAlpha (c : Char) : Bool := 'a' ≤ c && c ≤ 'z'

/-- ASCII upper-case letter. -/
def isUpperAlpha (c : Char) : Bool := 'A' ≤ c && c ≤ 'Z'

/-- The regex class `[a-z]` under `re.IGNORECASE`. -/
def isAlphaCI (c : Char) : Bool := isLowerAlpha c || isUpperAlpha c

/-- ASCII digit, the regex class `\d` (ASCII range). -/
def isDigitChar (c : Char) : Bool := '0' ≤ c && c ≤ '9'

/-- The regex class `[a-z0-9-]` under `re.IGNORECASE`. -/
def isDomainChar (c : Char) : Bool := isAlphaCI c || isDigitChar c || c = '-'

/-- The regex class `[a-z0-9.-]` under `re.IGNORECASE`. -/
def isHostChar (c : Char) : Bool := isDomainChar c || c = '.'

/-- Word character for the regex `\b` boundary: `[a-zA-Z0-9_]` (ASCII range
of Python's `\w`). -/
def isWordChar (c : Char) : Bool := isAlphaCI c || isDigitChar c || c = '_'

/-- ASCII-range model of Python's `str.lower` (every character it is applied
to in the embedded code is ASCII). -/
def pyLowerChar (c : Char) : Char :=
  if isUpperAlpha c then Char.ofNat (c.toNat + 32) else c

/-- ASCII-range model of Python's `str.upper`. -/
def pyUpperChar (c : Char) : Char :=
  if isLowerAlpha c then Char.ofNat (c.toNat - 32) else c

def pyLower (s : List Char) : List Char := s.map pyLowerChar

def pyUpper (s : List Char) : List Char := s.map pyUpperChar

/-- Python `str.strip()`: remove leading and trailing whitespace. -/
def pyStrip (s : List Char) : List Char :=
  ((s.dropWhile pyIsSpace).reverse.dropWhile pyIsSpace).reverse

/-- Scanner for `pyReplace`: `skip` counts characters still to drop because
they belonged to the occurrence just replaced. -/
def pyReplaceAux (pat rep : List Char) : List Char → Nat → List Char
  | [], _ => []
  | _ :: cs, skip + 1 => pyReplaceAux pat rep cs skip
  | c :: cs, 0 =>
    if pat ≠ [] ∧ pat.isPrefixOf (c :: cs) then
      rep ++ pyReplaceAux pat rep cs (pat.length - 1)
    else
      c :: pyReplaceAux pat rep cs 0

/-- Python `str.replace(pat, rep)` for a non-empty pattern: replace all
non-overlapping occurrences, scanning left to right.  (The embedded code
never calls `replace` with an empty pattern; this model leaves the string
unchanged in that unused case.) -/
def pyReplace (pat rep l : List Char) : List Char :=
  pyReplaceAux pat rep l 0

/-- Substring containment, the semantics of Python's `in` operator on
strings and of `re.search` for a literal pattern. -/
def containsSub (pat : List Char) : List Char → Bool
  | [] => pat.isPrefixOf []
  | c :: cs => pat.isPrefixOf (c :: cs) || containsSub pat cs

/-- Case-insensitive prefix test (for regex literals under `re.IGNORECASE`). -/
def ciPrefix (pat s : List Char) : Bool :=
  (pyLower pat).isPrefixOf (pyLower s)

/-- `sep.join xs` as in Python. -/
def joinSep (sep : List Char) : List (List Char) → List Char
  | [] => []
  | [x] => x
  | x :: y :: xs => x ++ sep ++ joinSep sep (y :: xs)

/-- A Python regex `...$` (without `re.MULTILINE`) matches at the very end of
the string or just before one final newline; none of the patterns embedded
here can themselves match a newline, so full-match against `X$` is full-match
of `X` against the string with one trailing newline removed. -/
def dollarTrim (s : List Char) : List Char :=
  if s.getLast? = some '\n' then s.dropLast else s

end CCVec

namespace CCVec

/-! ## Chunker (`WARCTextProcessor.chunk_text`, text_processor.py lines 306-341) -/

/-- Index of the last element of `l` satisfying `p`, if any. -/
def lastIdxOf (p : Char → Bool) : List Char → Option Nat
  | [] => none
  | c :: cs =>
    match lastIdxOf p cs with
    | some i => some (i + 1)
    | none => if p c then some 0 else none

/-- Python `text.rfind(".", start, stop)`: the largest index `i` with
`start ≤ i < min stop len` and `text[i] = '.'` (as an `Option`; Python's
`-1` result is the `none` case). -/
def pyRfindDot (text : List Char) (start stop : Nat) : Option Nat :=
  (lastIdxOf (fun c => c = '.') ((text.drop start).take (stop - start))).map
    (fun i => i + start)

/-- The adjusted window end of one `chunk_text` iteration: cut at a
sentence-terminating period past the window midpoint when one exists
(`sentence_end = text.rfind(".", start, end)`), else at the raw boundary
`start + chunk_size`. -/
def chunkEnd (text : List Char) (size start : Nat) : Nat :=
  match pyRfindDot text start (start + size) with
  | some se => if start + size / 2 < se then se + 1 else start + size
  | none => start + size

/-- The `while start < len(text)` loop of `chunk_text`, with explicit fuel.
The source loop, run with the parameters used by every theorem below
(`overlap ≤ chunk_size / 2`), advances `start` by at least one per
iteration, so fuel `text.length + 1` makes the Lean function agree with the
Python loop; fuel exhaustion (which corresponds to parameter combinations
where the Python loop would not terminate) returns the chunks collected so
far. -/
def chunkLoop (text : List Char) (size overlap : Nat) :
    Nat → Nat → List (List Char)
  | 0, _ => []
  | fuel + 1, start =>
    if start < text.length then
      if text.length ≤ start + size then
        [text.drop start]
      else
        ((text.drop start).take (chunkEnd text size start - start)) ::
          chunkLoop text size overlap fuel (chunkEnd text size start - overlap)
    else []

/-- `WARCTextProcessor.chunk_text`: return the whole text when it fits in
one chunk, otherwise run the sliding window and keep only the stripped,
non-empty chunks. -/
def chunk_text (text : List Char) (size overlap : Nat) : List (List Char) :=
  if text.length ≤ size then [text]
  else
    (chunkLoop text size overlap (text.length + 1) 0).filterMap
      (fun c => if pyStrip c = [] then none else some (pyStrip c))

end CCVec

namespace CCVec

/-! Basic lemmas about the string helpers. -/

theorem mem_dropWhile_of_mem {p : Char → Bool} {l : List Char} {c : Char}
    (hc : c ∈ l) (hp : p c = false) : c ∈ l.dropWhile p := by
  induction l with
  | nil => cases hc
  | cons a l ih =>
    rw [List.dropWhile_cons]
    by_cases h : p a = true
    · simp only [h, if_true]
      rcases List.mem_cons.1 hc with rfl | hmem
      · exact absurd h (by simp [hp])
      · exact ih hmem
    · rw [if_neg h]; exact hc

theorem mem_pyStrip_of_mem {l : List Char} {c : Char}
    (hc : c ∈ l) (hp : pyIsSpace c = false) : c ∈ pyStrip l := by
  unfold pyStrip
  rw [List.mem_reverse]
  exact mem_dropWhile_of_mem (by rw [List.mem_reverse]; exact mem_dropWhile_of_mem hc hp) hp

theorem head?_dropWhile_not {p : Char → Bool} {l : List Char} {c : Char}
    (h : (l.dropWhile p).head? = some c) : p c = false := by
  induction l with
  | nil => simp at h
  | cons a l ih =>
    rw [List.dropWhile_cons] at h
    by_cases hpa : p a = true
    · rw [if_pos hpa] at h; exact ih h
    · rw [if_neg hpa] at h
      simp only [List.head?_cons, Option.some.injEq] at h
      subst h
      exact Bool.eq_false_iff.2 hpa

/-- A non-empty stripped string contains a non-whitespace character. -/
theorem pyStrip_ne_nil_has_nonspace {l : List Char} (h : pyStrip l ≠ []) :
    ∃ c ∈ pyStrip l, pyIsSpace c = false := by
  unfold pyStrip at *
  set m := (l.dropWhile pyIsSpace).reverse.dropWhile pyIsSpace with hm
  have hmne : m ≠ [] := by
    intro hnil; apply h; rw [hnil]; rfl
  refine ⟨m.head hmne, ?_, ?_⟩
  · rw [List.mem_reverse]; exact List.head_mem hmne
  · exact head?_dropWhile_not (l := (l.dropWhile pyIsSpace).reverse)
      (by rw [← hm, List.head?_eq_head hmne])

end CCVec

namespace CCVec

/-! ## Claim C7: texts shorter than the chunk size come back unchanged. -/

/-- C7: for every text whose length is less than the chunk size, `chunk_text`
returns a one-element list containing exactly the input text, unchanged
(text_processor.py lines 319-320). -/
theorem chunk_text_short (text : List Char) (size overlap : Nat)
    (h : text.length < size) : chunk_text text size overlap = [text] := by
  unfold chunk_text
  rw [if_pos (Nat.le_of_lt h)]

/-- Witness for `chunk_text_short` at a concrete input. -/
theorem chunk_text_short_witness :
    ("hi".data.length < 1000) ∧ chunk_text "hi".data 1000 100 = ["hi".data] :=
  ⟨by decide, chunk_text_short "hi".data 1000 100 (by decide)⟩

end CCVec

namespace CCVec

/-! ## Claim C6: chunk coverage. -/

theorem lastIdxOf_lt_length {p : Char → Bool} {l : List Char} {i : Nat}
    (h : lastIdxOf p l = some i) : i < l.length := by
  induction l generalizing i with
  | nil => simp [lastIdxOf] at h
  | cons a l ih =>
    rw [lastIdxOf] at h
    cases hrec : lastIdxOf p l with
    | some j =>
      rw [hrec] at h
      simp only [Option.some.injEq] at h
      subst h
      have := ih hrec
      simp only [List.length_cons]
      omega
    | none =>
      rw [hrec] at h
      by_cases hp : p a = true
      · rw [if_pos hp] at h
        simp only [Option.some.injEq] at h
        subst h
        simp
      · rw [if_neg hp] at h; cases h

theorem pyRfindDot_lt_stop {text : List Char} {start stop i : Nat}
    (h : pyRfindDot text start stop = some i) : start ≤ i ∧ i < stop := by
  unfold pyRfindDot at h
  cases hfind : lastIdxOf (fun c => c = '.') ((text.drop start).take (stop - start)) with
  | none => rw [hfind] at h; cases h
  | some j =>
    rw [hfind] at h
    simp only [Option.map_some', Option.some.injEq] at h
    subst h
    have hj := lastIdxOf_lt_length hfind
    have : ((text.drop start).take (stop - start)).length ≤ stop - start :=
      List.length_take_le _ _
    constructor
    · omega
    · omega

theorem chunkEnd_bounds (text : List Char) (size start : Nat)
    (hsize : 0 < size) :
    start + size / 2 < chunkEnd text size start ∧
      chunkEnd text size start ≤ start + size := by
  have hd : size / 2 < size := Nat.div_lt_self hsize (by omega)
  unfold chunkEnd
  split
  · rename_i se hfind
    have := pyRfindDot_lt_stop hfind
    split
    · omega
    · omega
  · omega

/-- Every position of the text from `start` on is covered by some raw chunk
segment produced by the `chunk_text` window loop. -/
theorem chunkLoop_cover (text : List Char) (size overlap : Nat)
    (hsize : 0 < size) (hov : overlap ≤ size / 2) :
    ∀ fuel start i, text.length - start < fuel → i < text.length → start ≤ i →
      ∃ seg ∈ chunkLoop text size overlap fuel start, ∃ (hj : i < text.length),
        text.get ⟨i, hj⟩ ∈ seg := by
  intro fuel
  induction fuel with
  | zero => intro start i hfuel _ _; omega
  | succ fuel ih =>
    intro start i hfuel hi hs
    rw [chunkLoop]
    rw [if_pos (by omega : start < text.length)]
    by_cases hend : text.length ≤ start + size
    · rw [if_pos hend]
      refine ⟨text.drop start, List.mem_singleton.2 rfl, hi, ?_⟩
      have hlen : i - start < (text.drop start).length := by
        simp only [List.length_drop]; omega
      have : (text.drop start).get ⟨i - start, hlen⟩ = text.get ⟨i, hi⟩ := by
        simp only [List.get_eq_getElem, List.getElem_drop]
        congr 1
        omega
      rw [← this]
      exact List.get_mem _ _ _
    · rw [if_neg hend]
      have he1b := chunkEnd_bounds text size start hsize
      by_cases hcov : i < chunkEnd text size start
      · refine ⟨(text.drop start).take (chunkEnd text size start - start),
          List.mem_cons_self _ _, hi, ?_⟩
        have hlt : i - start <
            ((text.drop start).take (chunkEnd text size start - start)).length := by
          simp only [List.length_take, List.length_drop]
          omega
        have : ((text.drop start).take (chunkEnd text size start - start)).get
            ⟨i - start, hlt⟩ = text.get ⟨i, hi⟩ := by
          simp only [List.get_eq_getElem, List.getElem_take, List.getElem_drop]
          congr 1
          omega
        rw [← this]
        exact List.get_mem _ _ _
      · obtain ⟨seg, hseg, hmem⟩ :=
          ih (chunkEnd text size start - overlap) i (by omega) hi (by omega)
        exact ⟨seg, List.mem_cons_of_mem _ hseg, hmem⟩

/-- The C6 counterexample: a whitespace-only text no longer than the chunk
size is returned verbatim as the sole chunk, so `chunk_text` does produce a
whitespace-only chunk, contradicting the claim as stated. -/
theorem chunk_text_whitespace_chunk_counterexample :
    chunk_text " ".data 1000 100 = [" ".data] ∧
      ∀ c ∈ " ".data, pyIsSpace c = true := by
  constructor
  · rfl
  · decide

/-- C6 (amended): for chunk parameters with `0 < size` and
`overlap ≤ size / 2` (the configured defaults are 1000 and 100), every
non-whitespace character of the input appears in at least one produced
chunk; and whenever the text is longer than the chunk size (so the window
loop runs), every produced chunk contains a non-whitespace character — in
particular it is neither empty nor whitespace-only.  (For a text no longer
than the chunk size the text itself is the sole chunk, even when it is
empty or whitespace-only.) -/
theorem chunk_text_coverage (text : List Char) (size overlap : Nat)
    (hsize : 0 < size) (hov : overlap ≤ size / 2) :
    (∀ i (hi : i < text.length), pyIsSpace (text.get ⟨i, hi⟩) = false →
      ∃ seg ∈ chunk_text text size overlap, text.get ⟨i, hi⟩ ∈ seg) ∧
    (size < text.length →
      ∀ seg ∈ chunk_text text size overlap, ∃ c ∈ seg, pyIsSpace c = false) := by
  constructor
  · intro i hi hns
    unfold chunk_text
    by_cases hshort : text.length ≤ size
    · rw [if_pos hshort]
      exact ⟨text, List.mem_singleton.2 rfl, List.get_mem _ _ _⟩
    · rw [if_neg hshort]
      obtain ⟨seg, hseg, hj, hmem⟩ :=
        chunkLoop_cover text size overlap hsize hov (text.length + 1) 0 i
          (by omega) hi (by omega)
      refine ⟨pyStrip seg, ?_, mem_pyStrip_of_mem hmem hns⟩
      apply List.mem_filterMap.2
      refine ⟨seg, hseg, ?_⟩
      rw [if_neg ?_]
      exact List.ne_nil_of_mem (mem_pyStrip_of_mem hmem hns)
  · intro hlong seg hseg
    unfold chunk_text at hseg
    rw [if_neg (by omega)] at hseg
    obtain ⟨raw, _, hf⟩ := List.mem_filterMap.1 hseg
    by_cases hnil : pyStrip raw = []
    · rw [if_pos hnil] at hf; cases hf
    · rw [if_neg hnil] at hf
      obtain ⟨c, hc, hcs⟩ := pyStrip_ne_nil_has_nonspace hnil
      simp only [Option.some.injEq] at hf
      subst hf
      exact ⟨c, hc, hcs⟩

/-- Witness for `chunk_text_coverage` at concrete inputs (the configured
chunk size 1000 and overlap 100). -/
theorem chunk_text_coverage_witness :
    (0 < 1000 ∧ 100 ≤ 1000 / 2) ∧
      (∀ i (hi : i < "ab".data.length),
        pyIsSpace ("ab".data.get ⟨i, hi⟩) = false →
        ∃ seg ∈ chunk_text "ab".data 1000 100, "ab".data.get ⟨i, hi⟩ ∈ seg) :=
  ⟨⟨by decide, by decide⟩,
    (chunk_text_coverage "ab".data 1000 100 (by decide) (by decide)).1⟩

end CCVec

namespace CCVec

/-! ## Condition Builder (`CrawlQueryBuilder`, cc_athena_client.py) -/

/-- Word boundary `\b` on the left of a match position: start of string or a
preceding non-word character. -/
def boundaryBefore : Option Char → Bool
  | none => true
  | some c => !isWordChar c

/-- Word boundary `\b` on the right: end of string or a following non-word
character. -/
def boundaryAfter : List Char → Bool
  | [] => true
  | c :: _ => !isWordChar c

/-- The keyword `kw` matches at the head of `s` (case-insensitively) with a
word boundary after it. -/
def hasWordAt (kw s : List Char) : Bool :=
  ciPrefix kw s && boundaryAfter (s.drop kw.length)

def hasKeywordAux (kw : List Char) : Option Char → List Char → Bool
  | _, [] => false
  | prev, c :: cs =>
    (boundaryBefore prev && hasWordAt kw (c :: cs)) ||
      hasKeywordAux kw (some c) cs

/-- `re.search(r"\bKW\b", s, re.IGNORECASE)` for a literal keyword `KW`:
some occurrence of the keyword, case-insensitively, delimited by word
boundaries. -/
def hasKeyword (kw s : List Char) : Bool := hasKeywordAux kw none s

/-- The DDL/DML keywords of the dangerous-pattern alternation
`\b(DROP|DELETE|INSERT|UPDATE|ALTER|CREATE|EXEC|EXECUTE)\b`. -/
def sqlDangerousKeywords : List (List Char) :=
  ["DROP".data, "DELETE".data, "INSERT".data, "UPDATE".data,
   "ALTER".data, "CREATE".data, "EXEC".data, "EXECUTE".data]

/-- The conservative allow-list character class of `_escape_sql_string`:
ASCII letters and digits, period, underscore, hyphen, slash, percent,
whitespace, colon, comma, and the single quote. -/
def isAllowListChar (c : Char) : Bool :=
  c.isAlphanum || c = '.' || c = '_' || c = '-' || c = '/' || c = '%' ||
    c = ':' || c = ',' || c = '\'' || pyIsSpace c

/-- `CrawlQueryBuilder._escape_sql_string` (cc_athena_client.py lines
256-287): scan the dangerous patterns in source order, then double single
quotes, then check the allow-list; a `ValueError` is the `.error` case. -/
def escape_sql_string (value : List Char) : Except (List Char) (List Char) :=
  if containsSub ";".data value then
    .error ("String contains dangerous pattern: ".data ++ value)
  else if containsSub "--".data value then
    .error ("String contains dangerous pattern: ".data ++ value)
  else if containsSub "/*".data value then
    .error ("String contains dangerous pattern: ".data ++ value)
  else if containsSub "*/".data value then
    .error ("String contains dangerous pattern: ".data ++ value)
  else if hasKeyword "UNION".data value then
    .error ("String contains dangerous pattern: ".data ++ value)
  else if sqlDangerousKeywords.any (fun kw => hasKeyword kw value) then
    .error ("String contains dangerous pattern: ".data ++ value)
  else
    let escaped := pyReplace "'".data "''".data value
    if escaped.all isAllowListChar then .ok escaped
    else .error ("String contains invalid characters: ".data ++ value)

/-- The hypothesis of claim C2: the value contains a statement separator, a
comment marker, or a DDL/DML keyword (the keyword case-insensitively and at
word boundaries, which is the `\b`-delimited sense in which the escape
function's regexes detect keywords). -/
def sqlDangerousHit (s : List Char) : Bool :=
  containsSub ";".data s || containsSub "--".data s ||
    containsSub "/*".data s ||
    sqlDangerousKeywords.any (fun kw => hasKeyword kw s)

theorem escape_ok_no_danger {s v : List Char}
    (h : escape_sql_string s = .ok v) : sqlDangerousHit s = false := by
  unfold escape_sql_string at h
  repeat' split at h
  all_goals first
    | cases h
    | simp_all [sqlDangerousHit]

/-- C2: for every string containing a statement separator (`;`), a comment
marker (`--` or `/*`), or a DDL/DML keyword (case-insensitive, at word
boundaries), `_escape_sql_string` raises a `ValueError` instead of
returning an escaped string. -/
theorem escape_sql_string_rejects_dangerous (s : List Char)
    (h : sqlDangerousHit s = true) : ∃ e, escape_sql_string s = .error e := by
  cases he : escape_sql_string s with
  | ok v => exact absurd (escape_ok_no_danger he) (by simp [h])
  | error e => exact ⟨e, rfl⟩

/-- Witness for `escape_sql_string_rejects_dangerous` at a concrete input. -/
theorem escape_sql_string_rejects_dangerous_witness :
    sqlDangerousHit "a; drop table".data = true ∧
      ∃ e, escape_sql_string "a; drop table".data = .error e :=
  ⟨by decide, escape_sql_string_rejects_dangerous "a; drop table".data (by decide)⟩

/-- `CrawlQueryBuilder._validate_crawl_id`'s regex
`^CC-MAIN-\d{4}-\d{2}$` (case-sensitive). -/
def isCrawlIdShape (s : List Char) : Bool :=
  let t := dollarTrim s
  t.length = 15 && "CC-MAIN-".data.isPrefixOf t &&
    ((t.drop 8).take 4).all isDigitChar && (t.drop 12).take 1 = ['-'] &&
    (t.drop 13).all isDigitChar

/-- `CrawlQueryBuilder._validate_crawl_id` (cc_athena_client.py lines
289-308): return the crawl id unchanged when it matches the shape, raise a
`ValueError` otherwise. -/
def validate_crawl_id (crawl_id : List Char) : Except (List Char) (List Char) :=
  if isCrawlIdShape crawl_id then .ok crawl_id
  else .error ("Invalid crawl ID format: ".data ++ crawl_id)

/-- `CrawlQueryBuilder._build_exact_match_condition` (cc_athena_client.py
lines 333-354). -/
def build_exact_match_condition (column : List Char)
    (values : List (List Char)) : List Char :=
  match values with
  | [v] => column ++ " = '".data ++ v ++ "'".data
  | _ => column ++ " IN ('".data ++ joinSep "','".data values ++ "')".data

/-- The exact-crawl-id path of `to_sql` for one identifier
(cc_athena_client.py lines 453-454 and 457-459): normalize to upper case,
validate, and render the equality condition. -/
def exactCrawlIdCondition (cid : List Char) : Except (List Char) (List Char) :=
  (validate_crawl_id (pyUpper cid)).map
    (fun v => build_exact_match_condition "crawl".data [v])

end CCVec

namespace CCVec

/-- C4: crawl-identifier validation is idempotent — a validated identifier
is returned unchanged and re-validates to itself — and the compile path is
case-insensitive: two identifiers that agree up to ASCII case (equal
`upper()` images, e.g. `cc-main-2024-33` and `CC-MAIN-2024-33`) validate
identically and compile to the same crawl condition. -/
theorem validate_crawl_id_idempotent_ci :
    (∀ s r, validate_crawl_id s = .ok r →
      r = s ∧ validate_crawl_id r = .ok r) ∧
    (∀ c₁ c₂, pyUpper c₁ = pyUpper c₂ →
      exactCrawlIdCondition c₁ = exactCrawlIdCondition c₂) := by
  constructor
  · intro s r h
    unfold validate_crawl_id at *
    by_cases hs : isCrawlIdShape s = true
    · rw [if_pos hs] at h
      cases h
      exact ⟨rfl, by rw [if_pos hs]⟩
    · rw [if_neg hs] at h; cases h
  · intro c₁ c₂ h
    unfold exactCrawlIdCondition
    rw [h]

/-- Witness for `validate_crawl_id_idempotent_ci` at concrete inputs. -/
theorem validate_crawl_id_idempotent_ci_witness :
    ("CC-MAIN-2024-33".data = "CC-MAIN-2024-33".data ∧
      validate_crawl_id "CC-MAIN-2024-33".data = .ok "CC-MAIN-2024-33".data) ∧
    exactCrawlIdCondition "cc-main-2024-33".data =
      exactCrawlIdCondition "CC-MAIN-2024-33".data :=
  ⟨validate_crawl_id_idempotent_ci.1 "CC-MAIN-2024-33".data
      "CC-MAIN-2024-33".data (by rfl),
    validate_crawl_id_idempotent_ci.2 "cc-main-2024-33".data
      "CC-MAIN-2024-33".data (by decide)⟩

end CCVec

namespace CCVec

/-! ## Pattern Optimizer (`CrawlQueryBuilder._parse_url_pattern`,
cc_athena_client.py lines 41-194) -/

/-- `re.sub(r'^(https?|ftp)://', '', s, flags=re.IGNORECASE)`: strip one
protocol prefix at the start of the string. -/
def stripProtocol (s : List Char) : List Char :=
  if ciPrefix "https://".data s then s.drop 8
  else if ciPrefix "http://".data s then s.drop 7
  else if ciPrefix "ftp://".data s then s.drop 6
  else s

/-- Full match of `([a-z0-9-]+)\.([a-z]{2,})` (IGNORECASE): since neither
group may contain a dot, the string must consist of a non-empty domain
label, one dot, and a TLD of at least two letters. -/
def domainTldMatch (t : List Char) : Option (List Char × List Char) :=
  let a := t.takeWhile (fun c => c ≠ '.')
  match t.drop a.length with
  | '.' :: b =>
    if a ≠ [] && a.all isDomainChar && 2 ≤ b.length && b.all isAlphaCI then
      some (a, b)
    else none
  | _ => none

/-- Full match of `(www\.)?([a-z0-9-]+)\.([a-z]{2,})` (IGNORECASE) with the
regex engine's backtracking: prefer consuming a leading `www.`, fall back to
matching the whole string without it (so e.g. `www.com` matches with the
optional group absent). -/
def wwwDomainTldMatch (t : List Char) : Option (Bool × List Char × List Char) :=
  if ciPrefix "www.".data t then
    match domainTldMatch (t.drop 4) with
    | some (d, tld) => some (true, d, tld)
    | none => (domainTldMatch t).map (fun p => (false, p.1, p.2))
  else (domainTldMatch t).map (fun p => (false, p.1, p.2))

/-- Full match of `^%?\.([a-z]{2,})$` (pattern 1, TLD-only), on the
`$`-trimmed string. -/
def tldOnlyMatch (t : List Char) : Option (List Char) :=
  match (if t.head? = some '%' then t.drop 1 else t) with
  | '.' :: b => if 2 ≤ b.length && b.all isAlphaCI then some b else none
  | _ => none

/-- Full match of `^%([a-z0-9.-]+)\.([a-z]{2,})$` (pattern 3a, prefix
wildcard): group 1 may contain dots, so the split is at the last dot. -/
def prefixWildcardMatch (t : List Char) : Option (List Char × List Char) :=
  match t with
  | '%' :: u =>
    let b := (u.reverse.takeWhile (fun c => c ≠ '.')).reverse
    if b.length = u.length then none
    else
      let a := u.take (u.length - b.length - 1)
      if a ≠ [] && a.all isHostChar && 2 ≤ b.length && b.all isAlphaCI then
        some (a, b)
      else none
  | _ => none

/-- Full match of `^%\.(www\.)?([a-z0-9-]+)\.([a-z]{2,})$` (pattern 3b,
subdomain wildcard). -/
def subdomainWildcardMatch (t : List Char) :
    Option (Bool × List Char × List Char) :=
  match t with
  | '%' :: '.' :: u => wwwDomainTldMatch u
  | _ => none

/-- Full match of `^%\.([a-z0-9-]+)\.([a-z]{2,})$` — the subdomain-wildcard
exception inside the multiple-wildcard pre-check (no `www.` group). -/
def subdomainNoWwwMatch (t : List Char) : Option (List Char × List Char) :=
  match t with
  | '%' :: '.' :: u => domainTldMatch u
  | _ => none

/-- Full match of `^(www\.)?([a-z0-9-]+)\.([a-z]{2,})(/.*)$` (pattern 4,
domain with path): the host classes exclude `/`, so the path group starts
at the first slash; `.` does not match a newline. -/
def domainWithPathMatch (t : List Char) :
    Option (Bool × List Char × List Char × List Char) :=
  let host := t.takeWhile (fun c => c ≠ '/')
  match t.drop host.length with
  | '/' :: rest =>
    if ('/' :: rest).all (fun c => c ≠ '\n') then
      (wwwDomainTldMatch host).map (fun p => (p.1, p.2.1, p.2.2, '/' :: rest))
    else none
  | _ => none

/-- Full match of `^%\.([a-z0-9-]+)\.([a-z]{2,})(/.*)$` (pattern 5,
subdomain wildcard with path). -/
def subdomainWithPathMatch (t : List Char) :
    Option (List Char × List Char × List Char) :=
  match t with
  | '%' :: '.' :: u =>
    let host := u.takeWhile (fun c => c ≠ '/')
    match u.drop host.length with
    | '/' :: rest =>
      if ('/' :: rest).all (fun c => c ≠ '\n') then
        (domainTldMatch host).map (fun p => (p.1, p.2, '/' :: rest))
      else none
    | _ => none
  | _ => none

/-- The result dictionary of `_parse_url_pattern`, with its initial values
as field defaults. -/
structure UrlPatternResult where
  tld : Option (List Char) := none
  registered_domain : Option (List Char) := none
  host_names : List (List Char) := []
  path : Option (List Char) := none
  use_fallback : Bool := false
  reason : Option (List Char) := none
deriving DecidableEq, Repr

/-- `CrawlQueryBuilder._parse_url_pattern` (cc_athena_client.py lines
41-194): convert `*` wildcards to `%`, strip a protocol prefix, apply the
two fallback pre-checks, then try the six classification patterns in source
order. -/
def parse_url_pattern (pattern : List Char) : UrlPatternResult :=
  let sql := stripProtocol (pattern.map (fun c => if c = '*' then '%' else c))
  let t := dollarTrim sql
  if 1 < sql.count '%' ∧ ¬ sql.contains '/' ∧ (subdomainNoWwwMatch t).isNone then
    { use_fallback := true, reason := some "multiple wildcards in domain".data }
  else if sql.contains ':' ∨ sql.contains '?' ∨ sql.contains '#' then
    { use_fallback := true,
      reason := some "contains port/query/fragment".data }
  else
    match tldOnlyMatch t with
    | some tld =>
      { tld := some (pyLower tld), reason := some "tld-only pattern".data }
    | none =>
    match wwwDomainTldMatch t with
    | some (hasWww, d, tldRaw) =>
      let domain := pyLower d
      let tld := pyLower tldRaw
      let fullDomain := domain ++ ".".data ++ tld
      { tld := some tld,
        host_names :=
          if hasWww then ["www.".data ++ fullDomain]
          else [fullDomain, "www.".data ++ fullDomain],
        reason := some "exact domain pattern".data }
    | none =>
    match prefixWildcardMatch t with
    | some (dp, tldRaw) =>
      let domainPart := pyLower dp
      let tld := pyLower tldRaw
      { tld := some tld,
        host_names := [domainPart ++ ".".data ++ tld],
        reason := some "prefix wildcard pattern (exact hostname match)".data }
    | none =>
    match subdomainWildcardMatch t with
    | some (_, d, tldRaw) =>
      let domain := pyLower d
      let tld := pyLower tldRaw
      { tld := some tld,
        registered_domain := some (domain ++ ".".data ++ tld),
        reason := some "subdomain wildcard pattern".data }
    | none =>
    match domainWithPathMatch t with
    | some (hasWww, d, tldRaw, path) =>
      let domain := pyLower d
      let tld := pyLower tldRaw
      let fullDomain := domain ++ ".".data ++ tld
      { tld := some tld,
        host_names :=
          if hasWww then ["www.".data ++ fullDomain] else [fullDomain],
        path := some path,
        reason := some "domain with path pattern".data }
    | none =>
    match subdomainWithPathMatch t with
    | some (d, tldRaw, path) =>
      let domain := pyLower d
      let tld := pyLower tldRaw
      { tld := some tld,
        registered_domain := some (domain ++ ".".data ++ tld),
        path := some path,
        reason := some "subdomain wildcard with path".data }
    | none =>
      { use_fallback := true,
        reason := some "pattern too complex for optimization".data }

end CCVec

namespace CCVec

/-- C1: `_parse_url_pattern` is total by construction (it is a Lean
function: no input is rejected), and for every input pattern exactly one
outcome is produced — when the fallback flag is set no optimized column
value (tld, registered domain, host names, path) is set, and when it is not
set the pattern was classified into one of the optimized shapes, which
always derives a tld and a classification reason. -/
theorem parse_url_pattern_exactly_one_outcome (p : List Char) :
    ((parse_url_pattern p).use_fallback = true →
      (parse_url_pattern p).tld = none ∧
      (parse_url_pattern p).registered_domain = none ∧
      (parse_url_pattern p).host_names = [] ∧
      (parse_url_pattern p).path = none) ∧
    ((parse_url_pattern p).use_fallback = false →
      (parse_url_pattern p).tld.isSome ∧ (parse_url_pattern p).reason.isSome) := by
  unfold parse_url_pattern
  dsimp only
  constructor <;> (repeat' split) <;> simp

/-- Witness for `parse_url_pattern_exactly_one_outcome`: a fallback input
(two wildcards) has no optimized fields, and an optimized input (`%.va`)
has the fallback flag unset with a tld derived. -/
theorem parse_url_pattern_exactly_one_outcome_witness :
    ((parse_url_pattern "%a%b%".data).tld = none ∧
      (parse_url_pattern "%a%b%".data).registered_domain = none ∧
      (parse_url_pattern "%a%b%".data).host_names = [] ∧
      (parse_url_pattern "%a%b%".data).path = none) ∧
    ((parse_url_pattern "%.va".data).tld.isSome ∧
      (parse_url_pattern "%.va".data).reason.isSome) :=
  ⟨(parse_url_pattern_exactly_one_outcome "%a%b%".data).1 (by decide),
    (parse_url_pattern_exactly_one_outcome "%.va".data).2 (by decide)⟩

end CCVec

namespace CCVec

/-! ## Record Mapper (`CCAthenaClient._row_to_crawl_record`,
cc_athena_client.py lines 855-895, and the `CrawlRecord` model,
types/models.py lines 8-29) -/

/-- Python `str.isdigit` over the ASCII range: non-empty and all digits. -/
def pyIsDigitStr (s : List Char) : Bool := s ≠ [] && s.all isDigitChar

/-- Decimal value of a digit string, the value `int(s)` computes for a
string of ASCII digits. -/
def digitsToNat (s : List Char) : Nat :=
  s.foldl (fun acc c => acc * 10 + (c.toNat - 48)) 0

/-- Python truthiness of a string: non-empty. -/
def pyTruthy (s : List Char) : Bool := s ≠ []

/-- Python `s.split(sep)` for a one-character separator. -/
def splitOnChar (sep : Char) : List Char → List (List Char)
  | [] => [[]]
  | c :: cs =>
    match splitOnChar sep cs with
    | [] => [[]]
    | h :: t => if c = sep then [] :: h :: t else (c :: h) :: t

/-- The typed crawl record of `types/models.py` (fields as in the pydantic
model; `Optional` fields are `Option`s). -/
structure CrawlRecord where
  url : List Char
  urlkey : List Char
  timestamp : List Char
  status : Int
  mime : Option (List Char) := none
  digest : Option (List Char) := none
  length : Option Int := none
  offset : Option Int := none
  filename : Option (List Char) := none
  languages : Option (List (List Char)) := none
  charset : Option (List Char) := none
deriving DecidableEq, Repr

/-- Models pydantic's `HttpUrl` validator (an external library boundary):
accept an `http://` or `https://` scheme followed by a non-empty remainder.
Every claim below uses it only on concrete, plainly valid or plainly
invalid URLs. -/
def httpUrlValid (s : List Char) : Bool :=
  ("http://".data.isPrefixOf s && 7 < s.length) ||
    ("https://".data.isPrefixOf s && 8 < s.length)

/-- The `validate_timestamp` field validator of `CrawlRecord`
(types/models.py lines 23-29). -/
def timestampShapeOk (t : List Char) : Bool :=
  t.length = 4 || t.length = 6 || t.length = 8 || t.length = 10 ||
    t.length = 12 || t.length = 14

def geZeroOpt : Option Int → Bool
  | none => true
  | some n => decide (0 ≤ n)

/-- Constructing a `CrawlRecord` through pydantic validation: the
`status` bounds (`ge=100, le=599`), the timestamp shape validator, the
non-negativity of `length`/`offset`, and the `HttpUrl` check on `url`.
A `ValidationError` (a `ValueError` subclass) is the `none` case. -/
def mkCrawlRecord (url urlkey timestamp : List Char) (status : Int)
    (mime digest : Option (List Char)) (length offset : Option Int)
    (filename : Option (List Char)) (languages : Option (List (List Char)))
    (charset : Option (List Char)) : Option CrawlRecord :=
  if httpUrlValid url && decide (100 ≤ status) && decide (status ≤ 599) &&
      timestampShapeOk timestamp && geZeroOpt length && geZeroOpt offset then
    some { url := url, urlkey := urlkey, timestamp := timestamp,
           status := status, mime := mime, digest := digest,
           length := length, offset := offset, filename := filename,
           languages := languages, charset := charset }
  else none

/-- `CCAthenaClient._row_to_crawl_record` (cc_athena_client.py lines
855-895): a row with fewer than 10 cells yields no record; non-digit
status/offset/length cells fall back to `0`; the record is then built
through the validating `CrawlRecord` constructor, and any `ValueError`
(including a pydantic `ValidationError`) yields `none`. -/
def row_to_crawl_record (row : List (List Char)) : Option CrawlRecord :=
  if row.length < 10 then none
  else
    let url := row.getD 0 []
    let fetch_time := if pyTruthy (row.getD 2 []) then row.getD 2 [] else []
    let fetch_status : Int :=
      if pyTruthy (row.getD 3 []) && pyIsDigitStr (row.getD 3 []) then
        (digitsToNat (row.getD 3 []) : Int)
      else 0
    let mime_type := if pyTruthy (row.getD 4 []) then row.getD 4 [] else []
    let charset := if pyTruthy (row.getD 5 []) then row.getD 5 [] else []
    let languages_str := if pyTruthy (row.getD 6 []) then row.getD 6 [] else []
    let filename := if pyTruthy (row.getD 7 []) then row.getD 7 [] else []
    let offset : Int :=
      if pyTruthy (row.getD 8 []) && pyIsDigitStr (row.getD 8 []) then
        (digitsToNat (row.getD 8 []) : Int)
      else 0
    let length : Int :=
      if pyTruthy (row.getD 9 []) && pyIsDigitStr (row.getD 9 []) then
        (digitsToNat (row.getD 9 []) : Int)
      else 0
    let languages :=
      if pyTruthy languages_str then
        (splitOnChar ',' languages_str).map pyStrip
      else []
    let timestamp :=
      if pyTruthy fetch_time && fetch_time.contains ' ' then
        pyReplace "-".data [] (fetch_time.takeWhile (fun c => c ≠ ' '))
      else []
    let urlkey := pyReplace "http://".data [] (pyReplace "https://".data [] url)
    mkCrawlRecord url urlkey timestamp fetch_status (some mime_type) (some [])
      (some length) (some offset) (some filename) (some languages)
      (some charset)

/-- The result loop of `CCAthenaClient.search_with_filter` (lines 736-741):
map each row, keep the records, skip the `None`s. -/
def recordsFromRows : List (List (List Char)) → List CrawlRecord
  | [] => []
  | r :: rs =>
    match row_to_crawl_record r with
    | some rec => rec :: recordsFromRows rs
    | none => recordsFromRows rs

end CCVec

namespace CCVec

theorem mkCrawlRecord_offset_length {url urlkey timestamp status mime digest
    length offset filename languages charset rec}
    (h : mkCrawlRecord url urlkey timestamp status mime digest length offset
      filename languages charset = some rec) :
    rec.offset = offset ∧ rec.length = length := by
  unfold mkCrawlRecord at h
  split at h
  · injection h with h
    subst h
    exact ⟨rfl, rfl⟩
  · cases h

/-- A result row whose status cell is not numeric.  The claim predicts a
record with status `0`; the code instead produces no record, because the
defaulted status `0` fails the `CrawlRecord` status-range validation
(`ge=100`), and the resulting `ValidationError` is caught and turned into
`None`. -/
def c5StatusRow : List (List Char) :=
  ["http://example.com/a".data, "k".data, "2024-08-05 12:00:00".data,
   "abc".data, "text/html".data, "utf-8".data, "eng".data,
   "crawl-data/CC-MAIN-2024-33/x.warc.gz".data, "123".data, "456".data]

/-- C5 counterexample: on a well-formed 10-cell row whose status cell is
the non-numeric `"abc"`, the Record Mapper yields no record at all — not a
record with status defaulted to `0` as the claim states. -/
theorem row_to_crawl_record_status_counterexample :
    row_to_crawl_record c5StatusRow = none := by rfl

/-- C5 (amended): a row with fewer than 10 cells yields no record; when a
record is produced, non-numeric offset or length cells have been defaulted
to `0` in it; a non-numeric status cell is defaulted to `0`, which then
fails the record's status-range validation (100-599), so such a row yields
`none` rather than a record; and a malformed row yields `none` rather than
raising, so the surrounding row loop simply skips it and still processes
all remaining rows. -/
theorem row_to_crawl_record_defensive :
    (∀ row, row.length < 10 → row_to_crawl_record row = none) ∧
    (∀ row rec, row_to_crawl_record row = some rec →
      (pyIsDigitStr (row.getD 8 []) = false → rec.offset = some 0) ∧
      (pyIsDigitStr (row.getD 9 []) = false → rec.length = some 0)) ∧
    (∀ row, 10 ≤ row.length → pyIsDigitStr (row.getD 3 []) = false →
      row_to_crawl_record row = none) ∧
    (∀ rows₁ bad rows₂, row_to_crawl_record bad = none →
      recordsFromRows (rows₁ ++ bad :: rows₂) =
        recordsFromRows rows₁ ++ recordsFromRows rows₂) := by
  refine ⟨?_, ?_, ?_, ?_⟩
  · intro row h
    unfold row_to_crawl_record
    rw [if_pos h]
  · intro row rec h
    unfold row_to_crawl_record at h
    by_cases hlen : row.length < 10
    · rw [if_pos hlen] at h; cases h
    · rw [if_neg hlen] at h
      dsimp only at h
      obtain ⟨ho, hl⟩ := mkCrawlRecord_offset_length h
      constructor
      · intro h8
        rw [ho]
        rw [show (pyTruthy (row.getD 8 []) && pyIsDigitStr (row.getD 8 []))
          = false from by rw [h8, Bool.and_false]]
        simp
      · intro h9
        rw [hl]
        rw [show (pyTruthy (row.getD 9 []) && pyIsDigitStr (row.getD 9 []))
          = false from by rw [h9, Bool.and_false]]
        simp
  · intro row h10 h3
    unfold row_to_crawl_record
    rw [if_neg (by omega)]
    dsimp only
    rw [mkCrawlRecord]
    rw [show (pyTruthy (row.getD 3 []) && pyIsDigitStr (row.getD 3 []))
      = false from by rw [h3, Bool.and_false]]
    simp
  · intro rows₁ bad rows₂ hbad
    induction rows₁ with
    | nil => simp [recordsFromRows, hbad]
    | cons r rs ih =>
      simp only [List.cons_append, recordsFromRows]
      cases row_to_crawl_record r with
      | some rec => simp [ih]
      | none => simp [ih]

/-- The record produced from a row whose offset cell is non-numeric. -/
def c5OffsetRow : List (List Char) :=
  ["http://example.com/a".data, "k".data, "2024-08-05 12:00:00".data,
   "200".data, "text/html".data, "utf-8".data, "eng".data,
   "crawl-data/CC-MAIN-2024-33/x.warc.gz".data, "abc".data, "456".data]

def c5OffsetRec : CrawlRecord :=
  { url := "http://example.com/a".data,
    urlkey := "example.com/a".data,
    timestamp := "20240805".data,
    status := 200,
    mime := some "text/html".data,
    digest := some [],
    length := some 456,
    offset := some 0,
    filename := some "crawl-data/CC-MAIN-2024-33/x.warc.gz".data,
    languages := some ["eng".data],
    charset := some "utf-8".data }

/-- Witness for `row_to_crawl_record_defensive` at concrete inputs. -/
theorem row_to_crawl_record_defensive_witness :
    row_to_crawl_record [] = none ∧
    c5OffsetRec.offset = some 0 ∧
    row_to_crawl_record c5StatusRow = none ∧
    recordsFromRows [c5OffsetRow, [], c5OffsetRow] =
      recordsFromRows [c5OffsetRow] ++ recordsFromRows [c5OffsetRow] :=
  ⟨row_to_crawl_record_defensive.1 [] (by decide),
    (row_to_crawl_record_defensive.2.1 c5OffsetRow c5OffsetRec (by rfl)).1
      (by decide),
    row_to_crawl_record_defensive.2.2.1 c5StatusRow (by decide) (by decide),
    row_to_crawl_record_defensive.2.2.2 [c5OffsetRow] [] [c5OffsetRow]
      (by rfl)⟩

end CCVec

namespace CCVec

/-! ## WARC extraction and the per-record processing gate
(`WARCTextProcessor.extract_html_from_warc` and `process_warc_record`,
text_processor.py lines 51-90 and 343-382) -/

/-- Index of the first occurrence of `pat` in `s` (Python `str.find`, with
`-1` as `none`). -/
def firstIdxOfSub (pat : List Char) : List Char → Option Nat
  | [] => if pat = [] then some 0 else none
  | c :: cs =>
    if pat.isPrefixOf (c :: cs) then some 0
    else (firstIdxOfSub pat cs).map (fun i => i + 1)

/-- Split off the text before and after the first occurrence of `pat`. -/
def splitOnceSub (pat s : List Char) : Option (List Char × List Char) :=
  (firstIdxOfSub pat s).map (fun i => (s.take i, s.drop (i + pat.length)))

/-- Python `text.split(pat, 2)`: at most two splits, the remainder is kept
whole even if it contains further occurrences. -/
def pySplit2 (pat s : List Char) : List (List Char) :=
  match splitOnceSub pat s with
  | none => [s]
  | some (a, r1) =>
    match splitOnceSub pat r1 with
    | none => [a, r1]
    | some (b, r2) => [a, b, r2]

/-- `WARCTextProcessor.extract_html_from_warc` (text_processor.py lines
51-90), on the UTF-8-decoded text of the record bytes (the lossy decode
itself is a codec boundary): split on double CRLF with at most two splits,
fail when fewer than three parts result, then trim the payload to the
earliest document-start marker, if any. -/
def extract_html_from_warc (decoded : List Char) : Option (List Char) :=
  let parts := pySplit2 "\r\n\r\n".data decoded
  if parts.length < 3 then none
  else
    let html_content := parts.getD 2 []
    let found := (["<!DOCTYPE".data, "<html".data, "<HTML".data,
        "<head".data, "<body".data].filterMap
      (fun m => firstIdxOfSub m html_content))
    match found.min? with
    | some i => some (html_content.drop i)
    | none => some html_content

/-- The dictionary produced by the HTML cleaner (`clean_html_text`): title,
meta description, cleaned text, links, and the word/char counts computed
from the text. -/
structure CleanResult where
  title : List Char
  meta_description : List Char := []
  text : List Char
  links : List (List Char × List Char) := []
  word_count : Nat
  char_count : Nat := 0
deriving DecidableEq, Repr

/-- `WARCTextProcessor.process_warc_record` (text_processor.py lines
343-382), with the HTML cleaner — which relies on the external
BeautifulSoup library — passed as a parameter `clean`: extract the HTML
payload (`if not html: return None` also rejects an empty payload), clean
it, apply the minimum-word gate (5 words with a truthy title, else 10), and
on success attach chunks when requested. -/
def process_warc_record (clean : List Char → CleanResult)
    (decoded : List Char) (include_chunks : Bool) :
    Option (CleanResult × List (List Char)) :=
  match extract_html_from_warc decoded with
  | none => none
  | some html =>
    if html = [] then none
    else
      let result := clean html
      let min_words := if pyTruthy result.title then 5 else 10
      if result.word_count < min_words then none
      else
        some (result,
          if include_chunks && pyTruthy result.text then
            chunk_text result.text 1000 100
          else [])

end CCVec

namespace CCVec

/-- C9: whenever the WARC payload extracts to a non-empty HTML string, the
record is processed to `none` exactly when the cleaned content's word count
is below the minimum-word threshold — 5 words when a title was extracted
(non-empty title), 10 words otherwise — and to a result at or above the
threshold. -/
theorem process_warc_record_threshold (clean : List Char → CleanResult)
    (decoded html : List Char) (include_chunks : Bool)
    (hx : extract_html_from_warc decoded = some html) (hne : html ≠ []) :
    ((clean html).word_count < (if pyTruthy (clean html).title then 5 else 10) →
      process_warc_record clean decoded include_chunks = none) ∧
    ((if pyTruthy (clean html).title then 5 else 10) ≤ (clean html).word_count →
      ∃ out, process_warc_record clean decoded include_chunks = some out) := by
  unfold process_warc_record
  simp only [hx]
  rw [if_neg hne]
  constructor
  · intro h
    rw [if_pos h]
  · intro h
    rw [if_neg (Nat.not_lt.2 h)]
    exact ⟨_, rfl⟩

/-- A concrete WARC record text and cleaner for the C9 witness: the cleaner
reports a title and 2 words, below the 5-word threshold. -/
def c9Clean : List Char → CleanResult :=
  fun _ => { title := "T".data, text := "one two".data, word_count := 2 }

def c9Decoded : List Char :=
  "WARC/1.0\r\n\r\nHTTP/1.1 200 OK\r\n\r\n<html><body>hi</body></html>".data

/-- Witness for `process_warc_record_threshold` at concrete inputs. -/
theorem process_warc_record_threshold_witness :
    process_warc_record c9Clean c9Decoded true = none :=
  (process_warc_record_threshold c9Clean c9Decoded
      "<html><body>hi</body></html>".data true (by rfl) (by decide)).1
    (by decide)

end CCVec

namespace CCVec

/-! ## Fetch-and-process loop (`fetch`, lib/fetch.py lines 52-112, with the
S3 byte fetch of `CCS3Client.fetch_warc_content`, s3_client.py lines 31-68,
and gzip decompression as explicit boundaries) -/

/-- Outcome of the gzip-decompression boundary (`gzip.decompress`).  The
source's `except gzip.BadGzipFile` clause distinguishes exactly the
bad-magic failure; any other failure the library can raise (such as
`EOFError` on a truncated stream) is a distinct outcome that the source
does not catch. -/
inductive DecompressOutcome where
  | ok (data : List Nat)
  | badGzipFile
  | otherError (msg : List Char)
deriving DecidableEq, Repr

/-- The external collaborators used by one `fetch` run: the S3 byte-range
fetch (which catches its own errors and returns `None` on failure, per
`CCS3Client.fetch_warc_content`), gzip decompression, and the WARC text
processor applied to the decompressed bytes and the record URL. -/
structure FetchEnv where
  fetchWarcContent : List Char → Int → Int → Option (List Nat)
  decompress : List Nat → DecompressOutcome
  processRecord : List Nat → List Char → Option CleanResult

/-- The `crawl_metadata` dictionary attached to each processed record. -/
structure CrawlMeta where
  url : List Char
  status : Int
  mime : Option (List Char)
  timestamp : List Char
  crawl : List Char
  length : Option Int
deriving DecidableEq, Repr

/-- `re.search(r'(CC-MAIN-\d{4}-\d{2})', filename)`: the leftmost
occurrence of a crawl identifier in the filename. -/
def crawlIdAt (l : List Char) : Bool :=
  "CC-MAIN-".data.isPrefixOf l && ((l.drop 8).take 4).length = 4 &&
    ((l.drop 8).take 4).all isDigitChar && (l.drop 12).take 1 = ['-'] &&
    ((l.drop 13).take 2).length = 2 && ((l.drop 13).take 2).all isDigitChar

def crawlIdSearch : List Char → Option (List Char)
  | [] => none
  | c :: cs =>
    if crawlIdAt (c :: cs) then some ((c :: cs).take 15)
    else crawlIdSearch cs

/-- Python falsiness of an optional integer (`None` and `0` are falsy). -/
def pyFalsyOptInt : Option Int → Bool
  | none => true
  | some n => n = 0

/-- Python falsiness of an optional string (`None` and `""` are falsy). -/
def pyFalsyOptStr : Option (List Char) → Bool
  | none => true
  | some s => s = []

/-- One iteration of the `fetch` loop (lib/fetch.py lines 52-107): records
with falsy location data are paired with `None` without a fetch; a failed
or empty S3 fetch pairs the record with `None`; a `BadGzipFile` failure
falls back to the raw bytes; any other decompression failure propagates as
an exception (`.error`); successful processing attaches crawl metadata,
where a filename without a recognizable crawl identifier raises
(`match.group(1)` on `None`); failed processing pairs the record with
`None`. -/
def fetch_step (env : FetchEnv) (record : CrawlRecord) :
    Except (List Char) (CrawlRecord × Option (CleanResult × CrawlMeta)) :=
  if pyFalsyOptStr record.filename || pyFalsyOptInt record.offset ||
      pyFalsyOptInt record.length then
    .ok (record, none)
  else
    let fn := record.filename.getD []
    match env.fetchWarcContent fn (record.offset.getD 0) (record.length.getD 0) with
    | some raw =>
      if raw ≠ [] then
        match (match env.decompress raw with
               | .ok d => Except.ok d
               | .badGzipFile => Except.ok raw
               | .otherError m => Except.error m) with
        | .error m => .error m
        | .ok warc =>
          match env.processRecord warc record.url with
          | some processed =>
            match crawlIdSearch fn with
            | some cid =>
              .ok (record, some (processed,
                { url := record.url, status := record.status,
                  mime := record.mime, timestamp := record.timestamp,
                  crawl := cid, length := record.length }))
            | none =>
              .error "AttributeError: NoneType object has no attribute group".data
          | none => .ok (record, none)
      else .ok (record, none)
    | none => .ok (record, none)

/-- The `for i, record in enumerate(records, 1)` loop of `fetch`: an
exception in any iteration aborts the whole call; otherwise the per-record
results are collected in order. -/
def fetch_loop (env : FetchEnv) :
    List CrawlRecord →
      Except (List Char) (List (CrawlRecord × Option (CleanResult × CrawlMeta)))
  | [] => .ok []
  | r :: rs => do
    let x ← fetch_step env r
    let xs ← fetch_loop env rs
    return x :: xs

end CCVec

namespace CCVec

/-- A record with complete S3 location data. -/
def c3Record : CrawlRecord :=
  { url := "http://example.com/".data, urlkey := "example.com/".data,
    timestamp := "20240805".data, status := 200,
    mime := some "text/html".data, digest := some [],
    length := some 1000, offset := some 5000,
    filename := some "crawl-data/CC-MAIN-2024-33/segments/x.warc.gz".data,
    languages := some [], charset := some [] }

/-- An environment whose fetch succeeds but whose decompression fails with
an error other than a bad gzip magic — as `gzip.decompress` does on a
truncated stream (`EOFError`), which the source's
`except gzip.BadGzipFile` clause does not catch. -/
def c3Env : FetchEnv :=
  { fetchWarcContent := fun _ _ _ => some [31, 139, 8, 0],
    decompress := fun _ =>
      .otherError "EOFError: Compressed file ended before the end-of-stream marker was reached".data,
    processRecord := fun _ _ => none }

/-- C3 counterexample: a per-record decompression failure that is not a
`BadGzipFile` propagates as an exception and aborts the batch — the record
is not paired with `None` and no remaining record is processed. -/
theorem fetch_decompress_error_aborts :
    fetch_loop c3Env [c3Record] =
      .error "EOFError: Compressed file ended before the end-of-stream marker was reached".data := by
  rfl

/-- C3 (amended): provided decompression never fails with an error other
than a bad gzip magic, and every record's filename embeds a crawl
identifier, the fetch loop never raises: it returns one result per input
record, in order, pairing each failing record (failed or empty fetch,
failed extraction or below-threshold content) with `None` and continuing
through the remaining records.  (A bad-gzip-magic "failure" is not paired
with `None`: the source treats the bytes as already decompressed and
continues with them.) -/
theorem fetch_step_ok (env : FetchEnv) (r : CrawlRecord)
    (hdec : ∀ b m, env.decompress b ≠ .otherError m)
    (hcid : ∀ fn, r.filename = some fn → (crawlIdSearch fn).isSome) :
    ∃ o, fetch_step env r = .ok (r, o) := by
  by_cases hfalsy : (pyFalsyOptStr r.filename || pyFalsyOptInt r.offset ||
      pyFalsyOptInt r.length) = true
  · exact ⟨none, by unfold fetch_step; rw [if_pos hfalsy]⟩
  · have hex : ∃ fn, r.filename = some fn := by
      cases hsome : r.filename with
      | none => exact absurd (by simp [pyFalsyOptStr, hsome]) hfalsy
      | some s => exact ⟨s, rfl⟩
    obtain ⟨fn, hfn⟩ := hex
    have hsome := hcid fn hfn
    rw [Option.isSome_iff_exists] at hsome
    obtain ⟨cid, hcid'⟩ := hsome
    unfold fetch_step
    rw [if_neg hfalsy]
    dsimp only
    rw [hfn]
    dsimp only [Option.getD]
    rw [hcid']
    split
    · rename_i raw hraw
      split
      · cases hd : env.decompress raw with
        | ok d =>
          dsimp only
          split
          · exact ⟨_, rfl⟩
          · exact ⟨none, rfl⟩
        | badGzipFile =>
          dsimp only
          split
          · exact ⟨_, rfl⟩
          · exact ⟨none, rfl⟩
        | otherError m => exact absurd hd (hdec _ m)
      · exact ⟨none, rfl⟩
    · exact ⟨none, rfl⟩

/-- C3 (amended), batch form: under the same provisos, the loop returns one
result per record, in order, never aborting. -/
theorem fetch_loop_no_abort (env : FetchEnv) (records : List CrawlRecord)
    (hdec : ∀ b m, env.decompress b ≠ .otherError m)
    (hcid : ∀ r ∈ records, ∀ fn, r.filename = some fn →
      (crawlIdSearch fn).isSome) :
    ∃ out, fetch_loop env records = .ok out ∧ out.map Prod.fst = records := by
  induction records with
  | nil => exact ⟨[], rfl, rfl⟩
  | cons r rs ih =>
    obtain ⟨out, hout, hmap⟩ := ih (fun x hx => hcid x (List.mem_cons_of_mem _ hx))
    obtain ⟨o, ho⟩ :=
      fetch_step_ok env r hdec (hcid r (List.mem_cons_self _ _))
    refine ⟨(r, o) :: out, ?_, ?_⟩
    · unfold fetch_loop
      rw [ho, hout]
      rfl
    · simp [hmap]

/-- An environment that never fails decompression for the
`fetch_loop_no_abort` witness. -/
def c3OkEnv : FetchEnv :=
  { fetchWarcContent := fun _ _ _ => some [1, 2, 3],
    decompress := fun b => .ok b,
    processRecord := fun _ _ => none }

/-- Witness for `fetch_loop_no_abort` at concrete inputs. -/
theorem fetch_loop_no_abort_witness :
    ∃ out, fetch_loop c3OkEnv [c3Record] = .ok out ∧
      out.map Prod.fst = [c3Record] :=
  fetch_loop_no_abort c3OkEnv [c3Record]
    (fun b m h => by simp [c3OkEnv] at h)
    (fun r hr fn hfn => by
      rcases List.mem_singleton.1 hr with rfl
      have h2 : some "crawl-data/CC-MAIN-2024-33/segments/x.warc.gz".data
          = some fn := hfn
      injection h2 with h2
      rw [← h2]
      decide)

/-- C10: a record whose byte offset is `0` or missing, whose byte length is
`0` or missing, or whose source filename is empty or missing, is paired
with `None` by the fetch loop regardless of the environment — the
byte-range fetch is never attempted, and a zero value is treated exactly
like a missing one. -/
theorem fetch_step_zero_is_missing (env : FetchEnv) (r : CrawlRecord)
    (h : r.offset = some 0 ∨ r.offset = none ∨ r.length = some 0 ∨
      r.length = none ∨ r.filename = some [] ∨ r.filename = none) :
    fetch_step env r = .ok (r, none) := by
  unfold fetch_step
  rw [if_pos ?_]
  rcases h with h | h | h | h | h | h <;>
    simp [pyFalsyOptStr, pyFalsyOptInt, h]

/-- Witness for `fetch_step_zero_is_missing` at a concrete input: the same
record with a zero offset and with a missing offset both short-circuit to
`(record, none)`. -/
theorem fetch_step_zero_is_missing_witness :
    fetch_step c3OkEnv { c3Record with offset := some 0 } =
        .ok ({ c3Record with offset := some 0 }, none) ∧
      fetch_step c3OkEnv { c3Record with offset := none } =
        .ok ({ c3Record with offset := none }, none) :=
  ⟨fetch_step_zero_is_missing c3OkEnv _ (Or.inl rfl),
    fetch_step_zero_is_missing c3OkEnv _ (Or.inr (Or.inl rfl))⟩

end CCVec

namespace CCVec

/-! ## Query Compiler (`CrawlQueryBuilder.to_sql` and helpers,
cc_athena_client.py lines 196-639) and the grouped-stats query
(`stats`, lib/stats.py lines 34-106) -/

/-- The filter interface consumed by `CrawlQueryBuilder.to_sql` and
`stats` — the fields those functions read, with Python's `None`/empty
falsiness modelled by empty lists/strings.  (The pydantic `FilterConfig`
model in `types/models.py` declares only a subset of these fields; the
embedding models the interface the query builder actually consumes.) -/
structure FilterConfig where
  url_patterns : List (List Char) := []
  url_host_names : List (List Char) := []
  url_host_tlds : List (List Char) := []
  url_host_registered_domains : List (List Char) := []
  url_paths : List (List Char) := []
  crawl_ids : List (List Char) := []
  status_codes : List Int := []
  mime_types : List (List Char) := []
  languages : List (List Char) := []
  charsets : List (List Char) := []
  date_from : List Char := []
  date_to : List Char := []
  custom_filters : List (List Char) := []

/-- Insertion into a Python `set`, modelled as an ordered deduplicated
list (first-insertion order; the properties proved below do not depend on
the iteration order, which Python leaves unspecified). -/
def setInsert (x : List Char) (s : List (List Char)) : List (List Char) :=
  if x ∈ s then s else s ++ [x]

def setUnion (s xs : List (List Char)) : List (List Char) :=
  xs.foldl (fun acc x => setInsert x acc) s

/-- The accumulator dictionary of `_optimize_url_patterns`
(cc_athena_client.py lines 196-254). -/
structure OptimizedPatterns where
  tlds : List (List Char) := []
  registered_domains : List (List Char) := []
  host_names : List (List Char) := []
  paths : List (List Char) := []
  fallback_patterns : List (List Char) := []
  optimized_count : Nat := 0
  fallback_count : Nat := 0

/-- `CrawlQueryBuilder._optimize_url_patterns`: classify each pattern;
fallback patterns are escaped (which can raise) and collected for a raw
`url LIKE` group; optimized patterns contribute their derived column
values to per-column sets. -/
def optimize_url_patterns (patterns : List (List Char)) :
    Except (List Char) OptimizedPatterns :=
  patterns.foldlM
    (fun acc p => do
      let parsed := parse_url_pattern p
      if parsed.use_fallback then do
        let safe ← escape_sql_string
          (p.map (fun c => if c = '*' then '%' else c))
        return { acc with
          fallback_patterns := acc.fallback_patterns ++ [safe],
          fallback_count := acc.fallback_count + 1 }
      else
        let acc := match parsed.tld with
          | some t => if t = [] then acc else { acc with tlds := setInsert t acc.tlds }
          | none => acc
        let acc := match parsed.registered_domain with
          | some d => if d = [] then acc
            else { acc with registered_domains := setInsert d acc.registered_domains }
          | none => acc
        let acc := if parsed.host_names ≠ [] then
            { acc with host_names := setUnion acc.host_names parsed.host_names }
          else acc
        let acc := match parsed.path with
          | some pth => if pth = [] then acc
            else { acc with paths := setInsert pth acc.paths }
          | none => acc
        return { acc with optimized_count := acc.optimized_count + 1 })
    {}

/-- Decimal digits of a natural number, most significant first (the
rendering `str(int)` uses). -/
def natToStrAux : Nat → Nat → List Char
  | 0, _ => []
  | fuel + 1, n =>
    if n < 10 then [Char.ofNat (48 + n)]
    else natToStrAux fuel (n / 10) ++ [Char.ofNat (48 + n % 10)]

def natToStr (n : Nat) : List Char := natToStrAux (n + 1) n

def intToStr (i : Int) : List Char :=
  if i < 0 then '-' :: natToStr i.natAbs else natToStr i.toNat

/-- `CrawlQueryBuilder._validate_integer` (cc_athena_client.py lines
310-331). -/
def validate_integer (value mn mx : Int) : Except (List Char) Int :=
  if mn ≤ value ∧ value ≤ mx then .ok value
  else .error ("Integer ".data ++ intToStr value ++ " not in range [".data ++
    intToStr mn ++ ", ".data ++ intToStr mx ++ "]".data)

/-- `CrawlQueryBuilder._build_exact_match_condition_int` (lines 356-377). -/
def build_exact_match_condition_int (column : List Char) (values : List Int) :
    List Char :=
  match values with
  | [v] => column ++ " = ".data ++ intToStr v
  | _ => column ++ " IN (".data ++ joinSep ",".data (values.map intToStr) ++
      ")".data

/-- `CrawlQueryBuilder._build_like_conditions` (lines 379-400). -/
def build_like_conditions (column : List Char) (values : List (List Char)) :
    List Char :=
  match values.map (fun v => column ++ " LIKE '".data ++ v ++ "'".data) with
  | [c] => c
  | cs => "(".data ++ joinSep " OR ".data cs ++ ")".data

/-- The crawl-id pattern shape `^CC-MAIN-[\d%_-]+$` (line 445). -/
def crawlPatternShapeOk (s : List Char) : Bool :=
  let t := dollarTrim s
  "CC-MAIN-".data.isPrefixOf t && t.drop 8 ≠ [] &&
    (t.drop 8).all (fun c => isDigitChar c || c = '%' || c = '_' || c = '-')

/-- The crawl-identifier condition of `to_sql` (lines 431-471): split the
given ids into exact ids (upper-cased, validated) and glob patterns
(stripped, upper-cased, converted to `LIKE` wildcards, shape-checked,
escaped), build an equality/IN condition and/or an OR'd LIKE group, and
default to the fixed latest crawl when no ids are given. -/
def crawlConditionOf (crawl_ids : List (List Char)) :
    Except (List Char) (List Char) :=
  if crawl_ids ≠ [] then do
    let pair ← crawl_ids.foldlM
      (fun (acc : List (List Char) × List (List Char)) cid => do
        if cid.contains '*' || cid.contains '?' then
          let cid_upper := pyUpper (pyStrip cid)
          let sql_pattern :=
            pyReplace "?".data "_".data (pyReplace "*".data "%".data cid_upper)
          if crawlPatternShapeOk sql_pattern then do
            let esc ← escape_sql_string sql_pattern
            return (acc.1, acc.2 ++ [esc])
          else
            .error ("Invalid crawl ID pattern: ".data ++ cid)
        else do
          let v ← validate_crawl_id (pyUpper cid)
          return (acc.1 ++ [v], acc.2))
      ([], [])
    let conds :=
      (if pair.1 ≠ [] then [build_exact_match_condition "crawl".data pair.1]
       else []) ++
      (if pair.2 ≠ [] then [build_like_conditions "crawl".data pair.2]
       else [])
    match conds with
    | [c] => return c
    | cs => return "(".data ++ joinSep " OR ".data cs ++ ")".data
  else do
    let v ← validate_crawl_id "CC-MAIN-2024-33".data
    return build_exact_match_condition "crawl".data [v]

/-- Case-insensitive substring containment (`re.search` of a literal under
`re.IGNORECASE`). -/
def containsSubCI (pat s : List Char) : Bool :=
  containsSub (pyLower pat) (pyLower s)

/-- A run of characters satisfying `p`: its length and the rest. -/
def charRun (p : Char → Bool) : List Char → Nat × List Char
  | [] => (0, [])
  | c :: cs =>
    if p c then
      let r := charRun p cs
      (r.1 + 1, r.2)
    else (0, c :: cs)

def wsRun : List Char → Nat × List Char := charRun pyIsSpace

/-- `re.search(r"UNION\s+SELECT", s, re.IGNORECASE)`. -/
def unionSelectAt (l : List Char) : Bool :=
  ciPrefix "UNION".data l &&
    (let r := l.drop 5
     let w := (wsRun r).1
     1 ≤ w && ciPrefix "SELECT".data (r.drop w))

def hasUnionSelect : List Char → Bool
  | [] => false
  | c :: cs => unionSelectAt (c :: cs) || hasUnionSelect cs

/-- The free-form condition value class `[a-zA-Z0-9._\-slash-percent-ws,()]`
of `_validate_custom_filter` (dots, underscores, hyphens, slashes,
percents, whitespace, commas and parentheses besides letters and digits). -/
def isCustomValueChar (c : Char) : Bool :=
  c.isAlphanum || c = '.' || c = '_' || c = '-' || c = '/' || c = '%' ||
    pyIsSpace c || c = ',' || c = '(' || c = ')'

def isIdentStartChar (c : Char) : Bool := isAlphaCI c || c = '_'

def isIdentChar (c : Char) : Bool :=
  isAlphaCI c || isDigitChar c || c = '_'

def customOps : List (List Char) :=
  ["=".data, "!=".data, "<".data, ">".data, "<=".data, ">=".data,
   "LIKE".data, "IN".data]

/-- The value tail `['\x22']?[class]+['\x22']?` of the custom-condition
shape regex, with an optional single quote on each side. -/
def customValueOk (m : List Char) : Bool :=
  let body := fun (b : List Char) =>
    (b ≠ [] && b.all isCustomValueChar) ||
    (match b.getLast? with
     | some q => (q = '\'' || q = '"') && b.dropLast ≠ [] &&
         b.dropLast.all isCustomValueChar
     | none => false)
  match m with
  | '\'' :: rest => body rest
  | '"' :: rest => body rest
  | _ => body m

/-- Full match of the custom-condition shape
`^[a-zA-Z_][a-zA-Z0-9_]*\s*(op)\s*value$` (an existential search over the
split points, which is what regex backtracking decides). -/
def customShapeCore (t : List Char) : Bool :=
  (List.range (t.length + 1)).any (fun i =>
    1 ≤ i &&
    (match t.take i with
     | c :: rest => isIdentStartChar c && rest.all isIdentChar
     | [] => false) &&
    (let r := t.drop i
     (List.range (r.length + 1)).any (fun j =>
       (r.take j).all pyIsSpace &&
       customOps.any (fun op =>
         op.isPrefixOf (r.drop j) &&
         (let r2 := (r.drop j).drop op.length
          (List.range (r2.length + 1)).any (fun k =>
            (r2.take k).all pyIsSpace && customValueOk (r2.drop k)))))))

def customShapeOk (s : List Char) : Bool :=
  customShapeCore s ||
    (s.getLast? = some '\n' && customShapeCore s.dropLast)

/-- `CrawlQueryBuilder._validate_custom_filter` (cc_athena_client.py lines
600-639): the dangerous-pattern scan in source order, then the strict
`identifier operator literal` shape on the stripped condition. -/
def validate_custom_filter (custom_filter : List Char) :
    Except (List Char) (List Char) :=
  if sqlDangerousKeywords.any (fun kw => hasKeyword kw custom_filter) then
    .error ("Custom filter contains dangerous pattern: ".data ++ custom_filter)
  else if containsSub ";".data custom_filter then
    .error ("Custom filter contains dangerous pattern: ".data ++ custom_filter)
  else if containsSub "--".data custom_filter then
    .error ("Custom filter contains dangerous pattern: ".data ++ custom_filter)
  else if containsSub "/*".data custom_filter then
    .error ("Custom filter contains dangerous pattern: ".data ++ custom_filter)
  else if containsSub "*/".data custom_filter then
    .error ("Custom filter contains dangerous pattern: ".data ++ custom_filter)
  else if containsSubCI "xp_".data custom_filter then
    .error ("Custom filter contains dangerous pattern: ".data ++ custom_filter)
  else if containsSubCI "sp_".data custom_filter then
    .error ("Custom filter contains dangerous pattern: ".data ++ custom_filter)
  else if hasUnionSelect custom_filter then
    .error ("Custom filter contains dangerous pattern: ".data ++ custom_filter)
  else if containsSub "@@".data custom_filter then
    .error ("Custom filter contains dangerous pattern: ".data ++ custom_filter)
  else if customShapeOk (pyStrip custom_filter) then
    .ok (pyStrip custom_filter)
  else
    .error ("Custom filter format is invalid: ".data ++ custom_filter)

/-- The filter-field conditions appended to `WHERE` after the crawl and
partition predicates, in source order (cc_athena_client.py lines 478-586). -/
def buildFilterConds (f : FilterConfig) (optimized : OptimizedPatterns) :
    Except (List Char) (List (List Char)) := do
  let combined_tlds := setUnion optimized.tlds f.url_host_tlds
  let conds : List (List Char) := []
  let conds ← (if combined_tlds ≠ [] then do
      let safe ← combined_tlds.mapM escape_sql_string
      pure (conds ++ [build_exact_match_condition "url_host_tld".data safe])
    else pure conds)
  let combined_registered_domains :=
    setUnion optimized.registered_domains f.url_host_registered_domains
  let conds ← (if combined_registered_domains ≠ [] then do
      let safe ← combined_registered_domains.mapM escape_sql_string
      pure (conds ++
        [build_exact_match_condition "url_host_registered_domain".data safe])
    else pure conds)
  let combined_host_names := setUnion optimized.host_names f.url_host_names
  let conds ← (if combined_host_names ≠ [] then do
      let safe ← combined_host_names.mapM escape_sql_string
      pure (conds ++ [build_exact_match_condition "url_host_name".data safe])
    else pure conds)
  let combined_paths := setUnion optimized.paths f.url_paths
  let conds ← (if combined_paths ≠ [] then do
      let safe ← combined_paths.mapM escape_sql_string
      pure (conds ++ [build_like_conditions "url_path".data safe])
    else pure conds)
  let conds :=
    if optimized.fallback_patterns ≠ [] then
      conds ++ [build_like_conditions "url".data optimized.fallback_patterns]
    else conds
  let conds ← (if f.status_codes ≠ [] then do
      let validated ← f.status_codes.mapM (fun c => validate_integer c 100 599)
      pure (conds ++ [build_exact_match_condition_int "fetch_status".data validated])
    else pure conds)
  let conds ← (if f.mime_types ≠ [] then do
      let safe ← f.mime_types.mapM (fun m => do
        let e ← escape_sql_string m
        pure (e ++ "%".data))
      pure (conds ++ [build_like_conditions "content_mime_type".data safe])
    else pure conds)
  let conds ← (if f.languages ≠ [] then do
      let safe ← f.languages.mapM (fun m => do
        let e ← escape_sql_string m
        pure ("%".data ++ e ++ "%".data))
      pure (conds ++ [build_like_conditions "content_languages".data safe])
    else pure conds)
  let conds ← (if f.charsets ≠ [] then do
      let safe ← f.charsets.mapM (fun m => do
        let e ← escape_sql_string m
        pure (e ++ "%".data))
      pure (conds ++ [build_like_conditions "content_charset".data safe])
    else pure conds)
  let conds ← (if f.date_from ≠ [] then do
      let safe ← escape_sql_string f.date_from
      pure (conds ++ ["fetch_time >= '".data ++ safe ++ "'".data])
    else pure conds)
  let conds ← (if f.date_to ≠ [] then do
      let safe ← escape_sql_string f.date_to
      pure (conds ++ ["fetch_time <= '".data ++ safe ++ "'".data])
    else pure conds)
  let conds ← (if f.custom_filters ≠ [] then do
      let safe ← f.custom_filters.mapM validate_custom_filter
      pure (conds ++ safe.map (fun c => "(".data ++ c ++ ")".data))
    else pure conds)
  return conds

/-- The row-listing projection literal of `to_sql` (lines 417-429), with
the source's exact whitespace. -/
def selectClauseRows : List Char :=
  ("\n            SELECT\n                url,\n                url_host_name,\n                fetch_time,\n                fetch_status,\n                content_mime_type,\n                content_charset,\n                content_languages,\n                warc_filename,\n                warc_record_offset,\n                warc_record_length\n            ").data

/-- `CrawlQueryBuilder.to_sql` (cc_athena_client.py lines 402-598):
compose the projection, the crawl and partition predicates, the filter
conditions, and an optional bounded `LIMIT`, then strip the surrounding
whitespace of the query template. -/
def to_sql (f : FilterConfig) (limit : Option Int) (count_only : Bool) :
    Except (List Char) (List Char) := do
  let select_clause :=
    if count_only then "SELECT COUNT(*)".data else selectClauseRows
  let crawl_condition ← crawlConditionOf f.crawl_ids
  let optimized ← optimize_url_patterns f.url_patterns
  let rest ← buildFilterConds f optimized
  let where_conditions := crawl_condition :: "subset = 'warc'".data :: rest
  let query := "\n        ".data ++ select_clause ++
    "\n        FROM ccindex.ccindex\n        WHERE ".data ++
    joinSep " AND ".data where_conditions ++ "\n        ".data
  let query ← (if (match limit with | some l => l ≠ 0 | none => false) &&
      ¬ count_only then do
      let safe ← validate_integer (limit.getD 0) 1 100000
      pure (query ++ " LIMIT ".data ++ intToStr safe)
    else pure query)
  return pyStrip query

end CCVec

namespace CCVec

/-- Match of the crawl-predicate-removal regex
`crawl\s*(?:=\s*'[^']+'\s*|IN\s*\([^)]+\)\s*)AND\s+` of `stats`
(lib/stats.py lines 79-83) at the head of the string, returning the length
of the match.  Every quantified sub-pattern here is deterministic: the
greedy runs are each followed by a character they cannot consume. -/
def crawlSubMatchLen (l : List Char) : Option Nat :=
  match l with
  | 'c' :: 'r' :: 'a' :: 'w' :: 'l' :: r =>
    let s1 := wsRun r
    (match s1.2 with
     | '=' :: r2 =>
       let s2 := wsRun r2
       (match s2.2 with
        | '\'' :: r4 =>
          let sb := charRun (fun c => c ≠ '\'') r4
          if sb.1 = 0 then none
          else
            (match sb.2 with
             | '\'' :: r6 =>
               let s3 := wsRun r6
               (match s3.2 with
                | 'A' :: 'N' :: 'D' :: r8 =>
                  let s4 := wsRun r8
                  if s4.1 = 0 then none
                  else some (5 + s1.1 + 1 + s2.1 + 1 + sb.1 + 1 + s3.1 + 3 + s4.1)
                | _ => none)
             | _ => none)
        | _ => none)
     | 'I' :: 'N' :: r2 =>
       let s2 := wsRun r2
       (match s2.2 with
        | '(' :: r4 =>
          let sb := charRun (fun c => c ≠ ')') r4
          if sb.1 = 0 then none
          else
            (match sb.2 with
             | ')' :: r6 =>
               let s3 := wsRun r6
               (match s3.2 with
                | 'A' :: 'N' :: 'D' :: r8 =>
                  let s4 := wsRun r8
                  if s4.1 = 0 then none
                  else some (5 + s1.1 + 2 + s2.1 + 1 + sb.1 + 1 + s3.1 + 3 + s4.1)
                | _ => none)
             | _ => none)
        | _ => none)
     | _ => none)
  | _ => none

/-- Scanner of `re.sub` for the crawl-predicate pattern with an empty
replacement: skip the characters of a match, copy a non-matching head. -/
def pySubCrawlAux : List Char → Nat → List Char
  | [], _ => []
  | _ :: cs, skip + 1 => pySubCrawlAux cs skip
  | c :: cs, 0 =>
    match crawlSubMatchLen (c :: cs) with
    | some n => pySubCrawlAux cs (n - 1)
    | none => c :: pySubCrawlAux cs 0

def pySubCrawl (s : List Char) : List Char := pySubCrawlAux s 0

/-- The `--crawl-ids ALL` sentinel test of `stats` (lib/stats.py line 38):
a single identifier whose upper-case form is `ALL`. -/
def isAllSentinel (ids : List (List Char)) : Bool :=
  ids.length = 1 && pyUpper (ids.headD []) = "ALL".data

/-- The pydantic `FilterConfig` model of types/models.py.  It declares
only these fields; it does NOT declare `crawl_ids`, `url_host_names`,
`url_host_tlds`, `url_host_registered_domains`, `url_paths` or
`charsets`, and under pydantic v2 (no `extra` override, so
`extra='ignore'`) keyword arguments for undeclared fields are silently
dropped at construction. -/
structure PydanticFilterConfig where
  url_patterns : List (List Char)
  status_codes : List Int
  mime_types : List (List Char)
  languages : List (List Char)
  date_from : List Char
  date_to : List Char
  custom_filters : List (List Char)

/-- Construction of the pydantic `FilterConfig` with the keyword
arguments passed at lib/stats.py line 53: the undeclared
`crawl_ids`/`url_host_*`/`url_paths`/`charsets` kwargs are dropped, then
the model validators run — `url_patterns` is `Field(min_length=1)` and
must not be all-blank (`validate_url_patterns`), and every status code
must lie in 100..599 (`validate_status_codes`, skipped for an empty
list). -/
def mkPydanticFilterConfig (f : FilterConfig) :
    Except (List Char) PydanticFilterConfig :=
  if f.url_patterns.length < 1 then
    .error "ValidationError: url_patterns: List should have at least 1 item".data
  else if f.url_patterns.all (fun p => (pyStrip p).isEmpty) then
    .error "ValidationError: URL patterns cannot be empty".data
  else if ¬ f.status_codes.all (fun c => 100 ≤ c && c ≤ 599) then
    .error "ValidationError: Invalid HTTP status code".data
  else
    .ok { url_patterns := f.url_patterns, status_codes := f.status_codes,
          mime_types := f.mime_types, languages := f.languages,
          date_from := f.date_from, date_to := f.date_to,
          custom_filters := f.custom_filters }

/-- The grouped-stats query built by `stats` (lib/stats.py lines 34-106).
In the `ALL`-sentinel branch the code constructs the pydantic
`FilterConfig` (line 53) with a temporary `crawl_ids=["CC-MAIN-2024-33"]`
kwarg; the model drops that kwarg (it declares no such field), so when
`to_sql` then reads `self.filter_config.crawl_ids`
(cc_athena_client.py line 433) it raises `AttributeError`, which the
`except Exception` of `stats` turns into the error response — the
projection replacement and crawl-predicate removal below that line are
never reached.  In the other branch the code builds the count-only query
for the given filter unchanged, replaces the projection, and appends the
grouping clause (the crawl predicate stays). -/
def buildGroupedStatsQuery (f : FilterConfig) :
    Except (List Char) (List Char) := do
  if f.crawl_ids ≠ [] ∧ isAllSentinel f.crawl_ids then
    match mkPydanticFilterConfig f with
    | .error e => .error e
    | .ok _modified =>
      .error "AttributeError: 'FilterConfig' object has no attribute 'crawl_ids'".data
  else
    let base ← to_sql f none true
    let grouped := pyReplace "SELECT COUNT(*)".data
      "SELECT crawl, COUNT(*) as record_count".data base
    return grouped ++ " GROUP BY crawl ORDER BY crawl DESC".data

end CCVec

namespace CCVec

/-! Lemmas about stripping, replacement and joining, used for the
grouped-stats query shape. -/

/-- The trailing-whitespace half of `pyStrip`. -/
def pyStripEnd (l : List Char) : List Char :=
  (l.reverse.dropWhile pyIsSpace).reverse

theorem pyStrip_eq_stripEnd (l : List Char) :
    pyStrip l = pyStripEnd (l.dropWhile pyIsSpace) := rfl

theorem dropWhile_append_all {p : Char → Bool} {a : List Char}
    (b : List Char) (h : ∀ c ∈ a, p c = true) :
    (a ++ b).dropWhile p = b.dropWhile p := by
  induction a with
  | nil => rfl
  | cons x a ih =>
    rw [List.cons_append, List.dropWhile_cons, if_pos (h x (by simp))]
    exact ih (fun c hc => h c (by simp [hc]))

theorem dropWhile_cons_false {p : Char → Bool} {c : Char} (l : List Char)
    (h : p c = false) : (c :: l).dropWhile p = c :: l := by
  rw [List.dropWhile_cons, if_neg (by simp [h])]

theorem dropWhile_append_of_ne_nil {p : Char → Bool} {a : List Char}
    (b : List Char) (h : a.dropWhile p ≠ []) :
    (a ++ b).dropWhile p = a.dropWhile p ++ b := by
  induction a with
  | nil => simp at h
  | cons x a ih =>
    rw [List.dropWhile_cons] at h
    by_cases hp : p x = true
    · rw [List.cons_append, List.dropWhile_cons, if_pos hp,
        List.dropWhile_cons, if_pos hp]
      rw [if_pos hp] at h
      exact ih h
    · rw [List.cons_append, List.dropWhile_cons, if_neg hp,
        List.dropWhile_cons, if_neg hp]
      rfl

theorem pyStripEnd_append (x y : List Char) :
    pyStripEnd (x ++ y) =
      if pyStripEnd y = [] then pyStripEnd x else x ++ pyStripEnd y := by
  unfold pyStripEnd
  rw [List.reverse_append]
  by_cases hy : y.reverse.dropWhile pyIsSpace = []
  · rw [if_pos (by rw [hy]; rfl)]
    rw [dropWhile_append_all _ (List.dropWhile_eq_nil_iff.1 hy)]
  · rw [if_neg (by simp [hy])]
    rw [dropWhile_append_of_ne_nil _ hy, List.reverse_append,
      List.reverse_reverse]

theorem pyStripEnd_last_not {x : List Char} {c : Char}
    (hc : pyIsSpace c = false) : pyStripEnd (x ++ [c]) = x ++ [c] := by
  unfold pyStripEnd
  rw [List.reverse_append]
  simp only [List.reverse_cons, List.reverse_nil, List.nil_append,
    List.singleton_append]
  rw [dropWhile_cons_false _ hc, List.reverse_cons, List.reverse_reverse]

/-- Decomposition of `pyStrip` for a string of the shape
whitespace ++ x ++ y, where x starts and ends with a non-whitespace
character: the front strip removes exactly the leading whitespace and the
end strip stays inside y. -/
theorem pyStrip_decomp (w y : List Char) {x : List Char} {c d : Char}
    {xm : List Char} (hx : x = c :: xm ++ [d])
    (hw : ∀ e ∈ w, pyIsSpace e = true)
    (hc : pyIsSpace c = false) (hd : pyIsSpace d = false) :
    pyStrip (w ++ x ++ y) =
      x ++ (if pyStripEnd y = [] then [] else pyStripEnd y) := by
  rw [pyStrip_eq_stripEnd]
  rw [List.append_assoc, dropWhile_append_all _ hw]
  have hfront : (x ++ y).dropWhile pyIsSpace = x ++ y := by
    rw [hx, List.cons_append]
    exact dropWhile_cons_false _ hc
  rw [hfront, pyStripEnd_append x y]
  by_cases hye : pyStripEnd y = []
  · rw [if_pos hye, if_pos hye, List.append_nil, hx]
    show pyStripEnd ((c :: xm) ++ [d]) = (c :: xm) ++ [d]
    exact pyStripEnd_last_not hd
  · rw [if_neg hye, if_neg hye]

theorem joinSep_cons_exists (sep x : List Char) (t : List (List Char)) :
    ∃ more, joinSep sep (x :: t) = x ++ more := by
  cases t with
  | nil => exact ⟨[], by simp [joinSep]⟩
  | cons y t => exact ⟨sep ++ joinSep sep (y :: t), by simp [joinSep]⟩

/-- Firing `pyReplace` on a string that starts with the pattern. -/
theorem pyReplaceAux_skip (pat rep : List Char) :
    ∀ (a r : List Char), pyReplaceAux pat rep (a ++ r) a.length =
      pyReplaceAux pat rep r 0 := by
  intro a
  induction a with
  | nil => intro r; rfl
  | cons c a ih =>
    intro r
    rw [List.cons_append]
    show pyReplaceAux pat rep (c :: (a ++ r)) (a.length + 1) = _
    rw [pyReplaceAux]
    exact ih r

theorem pyReplace_fire {pat : List Char} (rep rest : List Char)
    (hp : pat ≠ []) :
    pyReplace pat rep (pat ++ rest) = rep ++ pyReplaceAux pat rep rest 0 := by
  cases pat with
  | nil => exact absurd rfl hp
  | cons p ps =>
    unfold pyReplace
    rw [List.cons_append, pyReplaceAux]
    rw [if_pos ⟨by simp, by
      rw [← List.cons_append]
      exact List.isPrefixOf_iff_prefix.2 (List.prefix_append _ _)⟩]
    congr 1
    have : (p :: ps).length - 1 = ps.length := by simp
    rw [this]
    exact pyReplaceAux_skip (p :: ps) rep ps rest

/-- `pyReplace` copies a region none of whose characters can start the
pattern. -/
theorem pyReplace_skip_head {pat : List Char} {p₀ : Char} {ps : List Char}
    (rep : List Char) (hp : pat = p₀ :: ps) :
    ∀ (K rest : List Char), (∀ c ∈ K, c ≠ p₀) →
      pyReplaceAux pat rep (K ++ rest) 0 = K ++ pyReplaceAux pat rep rest 0 := by
  intro K
  induction K with
  | nil => intro rest _; rfl
  | cons c K ih =>
    intro rest h
    rw [List.cons_append, pyReplaceAux]
    rw [if_neg ?_]
    · rw [List.cons_append]
      congr 1
      exact ih rest (fun e he => h e (by simp [he]))
    · intro hcon
      have h2 := hcon.2
      rw [hp] at h2
      simp only [List.isPrefixOf, Bool.and_eq_true, beq_iff_eq] at h2
      exact h c (by simp) h2.1.symm

end CCVec

namespace CCVec

/-! Lemmas about the crawl-predicate-removal scan. -/

theorem charRun_append {p : Char → Bool} {a : List Char} (t : List Char)
    (h : (charRun p a).2 ≠ []) :
    charRun p (a ++ t) = ((charRun p a).1, (charRun p a).2 ++ t) := by
  induction a with
  | nil => simp [charRun] at h
  | cons c a ih =>
    by_cases hp : p c = true
    · have h' : (charRun p a).2 ≠ [] := by
        rw [charRun, if_pos hp] at h
        simpa using h
      rw [List.cons_append]
      simp only [charRun, if_pos hp]
      rw [ih h']
    · rw [List.cons_append]
      simp only [charRun, if_neg hp]
      simp

theorem wsRun_append {a : List Char} (t : List Char)
    (h : (wsRun a).2 ≠ []) :
    wsRun (a ++ t) = ((wsRun a).1, (wsRun a).2 ++ t) :=
  charRun_append t h

/-- Mismatch detector against a pattern, deciding failure from the
available characters alone. -/
def notMatchAux : List Char → List Char → Bool
  | _, [] => false
  | [], _ :: _ => false
  | c :: cs, p :: ps => decide (c ≠ p) || notMatchAux cs ps

/-- After a full `crawl` literal, the next non-whitespace character (when
it is visible) decides failure unless it opens `=` or `IN`. -/
def failsFastAfter : List Char → Bool
  | [] => false
  | c :: rest =>
    if c = '=' then false
    else if c = 'I' then
      (match rest with
       | [] => false
       | d :: _ => decide (d ≠ 'N'))
    else true

/-- Sufficient, decidable condition for the removal regex not to match at
this position, for every continuation of the string. -/
def failsFast (C : List Char) : Bool :=
  match C with
  | 'c' :: 'r' :: 'a' :: 'w' :: 'l' :: r =>
    (wsRun r).2 ≠ [] && failsFastAfter (wsRun r).2
  | C => notMatchAux C "crawl".data

theorem notMatchAux_sound :
    ∀ (C t : List Char), notMatchAux C "crawl".data = true →
      crawlSubMatchLen (C ++ t) = none := by
  intro C t h
  rcases C with _ | ⟨c1, _ | ⟨c2, _ | ⟨c3, _ | ⟨c4, _ | ⟨c5, r⟩⟩⟩⟩⟩ <;>
    (unfold crawlSubMatchLen) <;>
    (split <;> simp_all [notMatchAux])

theorem failsFast_sound (C : List Char) (h : failsFast C = true) :
    ∀ t, crawlSubMatchLen (C ++ t) = none := by
  intro t
  unfold failsFast at h
  split at h
  case h_2 => exact notMatchAux_sound _ t h
  · rename_i r
    simp only [Bool.and_eq_true, ne_eq, decide_eq_true_eq] at h
    obtain ⟨hne, hafter⟩ := h
    have hne' : (wsRun r).2 ≠ [] := by
      intro hcon; rw [hcon] at hne; exact hne rfl
    show crawlSubMatchLen ('c' :: 'r' :: 'a' :: 'w' :: 'l' :: (r ++ t)) = none
    simp only [crawlSubMatchLen]
    rw [wsRun_append t hne']
    cases hr : (wsRun r).2 with
    | nil => exact absurd hr hne'
    | cons c rest =>
      dsimp only
      rw [hr] at hafter
      simp only [failsFastAfter] at hafter
      by_cases hceq : c = '='
      · rw [if_pos hceq] at hafter; cases hafter
      · rw [if_neg hceq] at hafter
        by_cases hci : c = 'I'
        · rw [if_pos hci] at hafter
          cases rest with
          | nil => cases hafter
          | cons d rest2 =>
            simp only [decide_eq_true_eq] at hafter
            subst hci
            split
            · rename_i heq
              cases heq
            · rename_i heq
              injection heq with h1 h2
              injection h2 with h3 _
              exact absurd h3 hafter
            · rfl
        · split
          · rename_i heq
            injection heq with h1 _
            exact absurd h1 hceq
          · rename_i heq
            injection heq with h1 _
            exact absurd h1 hci
          · rfl

/-- Skipping `n` characters of the scanner consumes them verbatim. -/
theorem pySubCrawlAux_skip :
    ∀ (a r : List Char), pySubCrawlAux (a ++ r) a.length = pySubCrawlAux r 0 := by
  intro a
  induction a with
  | nil => intro r; rfl
  | cons c a ih =>
    intro r
    rw [List.cons_append]
    show pySubCrawlAux (c :: (a ++ r)) (a.length + 1) = _
    rw [pySubCrawlAux]
    exact ih r

/-- The scanner copies a region at none of whose positions the removal
regex can match. -/
theorem pySubCrawlAux_copy :
    ∀ (K R : List Char),
      (∀ a v, K = a ++ v → v ≠ [] → crawlSubMatchLen (v ++ R) = none) →
      pySubCrawlAux (K ++ R) 0 = K ++ pySubCrawlAux R 0 := by
  intro K
  induction K with
  | nil => intro R _; rfl
  | cons c K ih =>
    intro R h
    rw [List.cons_append, pySubCrawlAux]
    rw [show crawlSubMatchLen (c :: (K ++ R)) = none from by
      have := h [] (c :: K) rfl (by simp)
      rw [List.cons_append] at this
      exact this]
    show c :: pySubCrawlAux (K ++ R) 0 = c :: (K ++ pySubCrawlAux R 0)
    exact congrArg _
      (ih R (fun a v hsplit hne => h (c :: a) v (by rw [hsplit]; rfl) hne))

/-- Bulk form of the no-match condition: check `failsFast` on every
non-empty suffix of the constant region `K`, extended by the constant
continuation `P`. -/
theorem pySubCrawlAux_copy_of_bulk (K P : List Char)
    (hbulk : (K.tails.all fun v => v.isEmpty || failsFast (v ++ P)) = true) :
    ∀ Z, pySubCrawlAux (K ++ (P ++ Z)) 0 = K ++ pySubCrawlAux (P ++ Z) 0 := by
  intro Z
  apply pySubCrawlAux_copy
  intro a v hsplit hne
  have hv : v ∈ K.tails := by
    rw [List.mem_tails]
    exact ⟨a, hsplit.symm⟩
  have := List.all_eq_true.1 hbulk v hv
  rw [Bool.or_eq_true] at this
  rcases this with hemp | hff
  · exact absurd (List.isEmpty_iff.1 hemp) hne
  · rw [← List.append_assoc]
    exact failsFast_sound (v ++ P) hff Z

end CCVec

namespace CCVec

/-- `to_sql` in the count-only, no-limit configuration used by `stats`,
with its monadic pipeline exposed. -/
theorem to_sql_count_eq (f : FilterConfig) :
    to_sql f none true =
      (crawlConditionOf f.crawl_ids).bind (fun cc =>
        (optimize_url_patterns f.url_patterns).bind (fun opt =>
          (buildFilterConds f opt).map (fun rest =>
            pyStrip ("\n        ".data ++ "SELECT COUNT(*)".data ++
              "\n        FROM ccindex.ccindex\n        WHERE ".data ++
              joinSep " AND ".data
                (cc :: "subset = 'warc'".data :: rest) ++
              "\n        ".data)))) := by
  unfold to_sql
  cases crawlConditionOf f.crawl_ids with
  | error e => rfl
  | ok cc =>
    cases optimize_url_patterns f.url_patterns with
    | error e => rfl
    | ok opt =>
      cases buildFilterConds f opt with
      | error e => rfl
      | ok rest => rfl

theorem to_sql_count_structure (f : FilterConfig) (q : List Char)
    (h : to_sql f none true = .ok q) :
    ∃ cc rest, crawlConditionOf f.crawl_ids = .ok cc ∧
      q = pyStrip ("\n        ".data ++ "SELECT COUNT(*)".data ++
        "\n        FROM ccindex.ccindex\n        WHERE ".data ++
        joinSep " AND ".data (cc :: "subset = 'warc'".data :: rest) ++
        "\n        ".data) := by
  rw [to_sql_count_eq] at h
  cases hc : crawlConditionOf f.crawl_ids with
  | error e => rw [hc] at h; cases h
  | ok cc =>
    rw [hc] at h
    simp only [Except.bind] at h
    cases ho : optimize_url_patterns f.url_patterns with
    | error e => rw [ho] at h; cases h
    | ok opt =>
      rw [ho] at h
      simp only [Except.bind] at h
      cases hb : buildFilterConds f opt with
      | error e => rw [hb] at h; cases h
      | ok rest =>
        rw [hb] at h
        simp only [Except.map] at h
        refine ⟨cc, rest, rfl, ?_⟩
        have : Except.ok (ε := List Char) (pyStrip ("\n        ".data ++
            "SELECT COUNT(*)".data ++
            "\n        FROM ccindex.ccindex\n        WHERE ".data ++
            joinSep " AND ".data (cc :: "subset = 'warc'".data :: rest) ++
            "\n        ".data)) = .ok q := h
        injection this with h2
        exact h2.symm

end CCVec

namespace CCVec

/-- Firing the removal scan at the default crawl predicate followed by
`subset = 'warc'`: the regex `crawl\s*=\s*'[^']+'\s*AND\s+` consumes
exactly the 30 characters of `crawl = 'CC-MAIN-2024-33' AND `. -/
theorem pySubCrawlAux_cp_consume (t : List Char) :
    pySubCrawlAux ("crawl = 'CC-MAIN-2024-33' AND ".data ++ 's' :: t) 0 =
      pySubCrawlAux ('s' :: t) 0 := by
  show pySubCrawlAux
      ('c' :: ("rawl = 'CC-MAIN-2024-33' AND ".data ++ 's' :: t)) 0 = _
  rw [pySubCrawlAux]
  rw [show crawlSubMatchLen
      ('c' :: ("rawl = 'CC-MAIN-2024-33' AND ".data ++ 's' :: t)) =
      some 30 from rfl]
  show pySubCrawlAux ("rawl = 'CC-MAIN-2024-33' AND ".data ++ 's' :: t) 29 = _
  exact pySubCrawlAux_skip "rawl = 'CC-MAIN-2024-33' AND ".data ('s' :: t)

/-- The removal scan of lib/stats.py lines 79-83 on a query body that
starts with the replaced projection, the `FROM`/`WHERE` head and the
fixed crawl predicate: the scan copies the head, deletes the crawl
predicate, and copies `subset = 'warc'`, whatever follows.  (In the
program this substitution is unreachable: the all-crawl branch fails
before it, see `buildGroupedStatsQuery`.) -/
theorem pySubCrawl_stats_body (Z : List Char) :
    pySubCrawl ("SELECT crawl, COUNT(*) as record_count".data ++
      (("\n        FROM ccindex.ccindex\n        WHERE ".data ++
        ("crawl = 'CC-MAIN-2024-33'".data ++
          (" AND ".data ++ "subset = 'warc'".data))) ++ Z)) =
      ("SELECT crawl, COUNT(*) as record_count".data ++
        "\n        FROM ccindex.ccindex\n        WHERE subset = 'warc'".data) ++
        pySubCrawl Z := by
  unfold pySubCrawl
  rw [show ("SELECT crawl, COUNT(*) as record_count".data ++
      (("\n        FROM ccindex.ccindex\n        WHERE ".data ++
        ("crawl = 'CC-MAIN-2024-33'".data ++
          (" AND ".data ++ "subset = 'warc'".data))) ++ Z) : List Char) =
      ("SELECT crawl, COUNT(*) as record_count".data ++
        "\n        FROM ccindex.ccindex\n        WHERE ".data) ++
        (("crawl = 'CC-MAIN-2024-33'".data ++
          (" AND ".data ++ "subset = 'warc'".data)) ++ Z) from by
    simp only [List.append_assoc]]
  rw [pySubCrawlAux_copy_of_bulk
    ("SELECT crawl, COUNT(*) as record_count".data ++
      "\n        FROM ccindex.ccindex\n        WHERE ".data)
    ("crawl = 'CC-MAIN-2024-33'".data ++
      (" AND ".data ++ "subset = 'warc'".data))
    (by decide) Z]
  rw [show (("crawl = 'CC-MAIN-2024-33'".data ++
      (" AND ".data ++ "subset = 'warc'".data)) ++ Z : List Char) =
      "crawl = 'CC-MAIN-2024-33' AND ".data ++
        's' :: ("ubset = 'warc'".data ++ Z) from by
    rw [show ("crawl = 'CC-MAIN-2024-33'".data ++
        (" AND ".data ++ "subset = 'warc'".data) : List Char) =
        "crawl = 'CC-MAIN-2024-33' AND ".data ++
          ('s' :: "ubset = 'warc'".data) from rfl]
    simp only [List.append_assoc, List.cons_append]]
  rw [pySubCrawlAux_cp_consume ("ubset = 'warc'".data ++ Z)]
  rw [show ('s' :: ("ubset = 'warc'".data ++ Z) : List Char) =
      "subset = 'warc'".data ++ ([] ++ Z) from by
    rw [show ("subset = 'warc'".data : List Char) =
      's' :: "ubset = 'warc'".data from rfl]
    simp only [List.cons_append, List.nil_append]]
  rw [pySubCrawlAux_copy_of_bulk "subset = 'warc'".data [] (by decide) Z]
  rw [List.nil_append]
  rw [show ("\n        FROM ccindex.ccindex\n        WHERE subset = 'warc'".data
      : List Char) =
      "\n        FROM ccindex.ccindex\n        WHERE ".data ++
        "subset = 'warc'".data from rfl]
  simp only [List.append_assoc]

end CCVec

namespace CCVec

/-- Shape of the grouped-stats query in the non-`ALL` branch: the
projection is replaced and the grouping clause appended (the crawl
predicate, whatever it is, stays inside the middle part). -/
theorem statsOtherBranch_shape (f : FilterConfig) (q : List Char)
    (h : (to_sql f none true).map
      (fun base => pyReplace "SELECT COUNT(*)".data
        "SELECT crawl, COUNT(*) as record_count".data base ++
        " GROUP BY crawl ORDER BY crawl DESC".data) = .ok q) :
    ∃ mid, q = "SELECT crawl, COUNT(*) as record_count".data ++ mid ++
      " GROUP BY crawl ORDER BY crawl DESC".data := by
  cases hts : to_sql f none true with
  | error e =>
    rw [hts] at h
    simp only [Except.map] at h
    exact Except.noConfusion h
  | ok base =>
    rw [hts] at h
    simp only [Except.map] at h
    injection h with hq
    obtain ⟨cc, rest, hcc, hbase⟩ := to_sql_count_structure f base hts
    obtain ⟨more, hmore⟩ := joinSep_cons_exists " AND ".data cc
      ("subset = 'warc'".data :: rest)
    rw [hmore] at hbase
    rw [show ("\n        ".data ++ "SELECT COUNT(*)".data ++
        "\n        FROM ccindex.ccindex\n        WHERE ".data ++
        (cc ++ more) ++ "\n        ".data : List Char) =
        "\n        ".data ++ "SELECT COUNT(*)".data ++
          ("\n        FROM ccindex.ccindex\n        WHERE ".data ++
            (cc ++ (more ++ "\n        ".data))) from by
      simp only [List.append_assoc]] at hbase
    have hbase2 : base = "SELECT COUNT(*)".data ++
        (if pyStripEnd ("\n        FROM ccindex.ccindex\n        WHERE ".data ++
            (cc ++ (more ++ "\n        ".data))) = [] then []
         else pyStripEnd ("\n        FROM ccindex.ccindex\n        WHERE ".data ++
            (cc ++ (more ++ "\n        ".data)))) := by
      rw [hbase]
      exact pyStrip_decomp _ _
        (show ("SELECT COUNT(*)".data : List Char) =
          'S' :: ("ELECT COUNT(*".data ++ [')']) from rfl)
        (by decide) (by rfl) (by rfl)
    rw [hbase2] at hq
    rw [pyReplace_fire "SELECT crawl, COUNT(*) as record_count".data _
      (by decide)] at hq
    exact ⟨_, hq.symm⟩

end CCVec

namespace CCVec

/-- `buildGroupedStatsQuery` with the two branches exposed. -/
theorem buildGroupedStatsQuery_eq (f : FilterConfig) :
    buildGroupedStatsQuery f =
      if f.crawl_ids ≠ [] ∧ isAllSentinel f.crawl_ids = true then
        match mkPydanticFilterConfig f with
        | .error e => .error e
        | .ok _modified =>
          .error "AttributeError: 'FilterConfig' object has no attribute 'crawl_ids'".data
      else
        (to_sql f none true).map
          (fun base => pyReplace "SELECT COUNT(*)".data
            "SELECT crawl, COUNT(*) as record_count".data base ++
            " GROUP BY crawl ORDER BY crawl DESC".data) := by
  unfold buildGroupedStatsQuery
  split
  · rfl
  · rfl

end CCVec

namespace CCVec

/-- C8: every grouped-stats query the stats operation actually builds
has the count-only shape with projection `crawl, COUNT(*)` and ends with
`GROUP BY crawl ORDER BY crawl DESC`; but the `ALL`-sentinel branch — the
one the claim says requests the all-crawl variant with the crawl
predicate removed — never builds a query at all: the temporary filter of
lib/stats.py line 53 is a pydantic `FilterConfig` that silently drops the
`crawl_ids` keyword argument, so `to_sql`'s `crawl_ids` attribute read
raises and `stats` falls into its error response.  (For a non-`ALL`
filter the crawl predicate — explicit or defaulted — remains in the
query; see the counterexample.) -/
theorem grouped_stats_query_shape :
    (∀ (f : FilterConfig) (q : List Char),
      buildGroupedStatsQuery f = .ok q →
      ∃ mid, q = "SELECT crawl, COUNT(*) as record_count".data ++ mid ++
        " GROUP BY crawl ORDER BY crawl DESC".data) ∧
    (∀ (f : FilterConfig), isAllSentinel f.crawl_ids = true →
      ∃ e, buildGroupedStatsQuery f = .error e) := by
  constructor
  · intro f q h
    rw [buildGroupedStatsQuery_eq] at h
    by_cases hcond : f.crawl_ids ≠ [] ∧ isAllSentinel f.crawl_ids = true
    · rw [if_pos hcond] at h
      cases hmk : mkPydanticFilterConfig f with
      | error e =>
        rw [hmk] at h
        exact Except.noConfusion h
      | ok pf =>
        rw [hmk] at h
        exact Except.noConfusion h
    · rw [if_neg hcond] at h
      exact statsOtherBranch_shape f q h
  · intro f hall
    have hne : f.crawl_ids ≠ [] := by
      intro hnil
      rw [hnil] at hall
      exact absurd hall (by decide)
    rw [buildGroupedStatsQuery_eq]
    rw [if_pos ⟨hne, hall⟩]
    cases hmk : mkPydanticFilterConfig f with
    | error e => exact ⟨e, rfl⟩
    | ok pf =>
      exact ⟨("AttributeError: " ++
        "'FilterConfig' object has no attribute 'crawl_ids'").data, rfl⟩

/-- C8, divergence: for a filter that requests a concrete crawl id (not
the `ALL` sentinel), the grouped-stats query keeps the crawl predicate in
its `WHERE` clause — the removal happens only in the `ALL` branch. -/
theorem grouped_stats_keeps_crawl_counterexample :
    ∃ q, buildGroupedStatsQuery
        { crawl_ids := ["CC-MAIN-2024-33".data] } = .ok q ∧
      containsSub "crawl = 'CC-MAIN-2024-33'".data q = true := by
  refine ⟨("SELECT crawl, COUNT(*) as record_count\n        FROM ccindex.ccindex\n        WHERE crawl = 'CC-MAIN-2024-33' AND subset = 'warc' GROUP BY crawl ORDER BY crawl DESC").data,
    ?_, ?_⟩
  · rfl
  · decide

/-- Witness for C8: a concrete non-`ALL` filter produces the concrete
grouped query with the proved shape, and a concrete `ALL`-sentinel
filter (with a valid pattern list) produces an error, not a query. -/
theorem grouped_stats_query_shape_witness :
    (∃ mid, ("SELECT crawl, COUNT(*) as record_count\n        FROM ccindex.ccindex\n        WHERE crawl = 'CC-MAIN-2024-33' AND subset = 'warc' GROUP BY crawl ORDER BY crawl DESC").data =
      "SELECT crawl, COUNT(*) as record_count".data ++ mid ++
        " GROUP BY crawl ORDER BY crawl DESC".data) ∧
    (∃ e, buildGroupedStatsQuery
      { url_patterns := ["%.example.com".data],
        crawl_ids := ["ALL".data] } = .error e) :=
  ⟨grouped_stats_query_shape.1 { crawl_ids := ["CC-MAIN-2024-33".data] }
    ("SELECT crawl, COUNT(*) as record_count\n        FROM ccindex.ccindex\n        WHERE crawl = 'CC-MAIN-2024-33' AND subset = 'warc' GROUP BY crawl ORDER BY crawl DESC").data
    (by rfl),
   grouped_stats_query_shape.2
    { url_patterns := ["%.example.com".data],
      crawl_ids := ["ALL".data] } (by rfl)⟩

end CCVec
